import Mathlib

/-!
Verification of the dom-to-canvas tree-snapshot builder, hit-tester and
interaction controller (src/dom-to-canvas.js).

The JavaScript code is shallowly embedded as follows.

DOM-like nodes (both live source nodes and the snapshot nodes produced by
traverseDomNodes) are duck-typed objects in JavaScript reading the fields
tagName, id, attributes, children, childElementCount; they are modelled by a
single inductive type DNode.  JavaScript numbers are modelled by rationals:
the source only adds, subtracts, multiplies and divides, so every quantity it
computes is an exact rational and the rational model reproduces each
computation exactly (with the single caveat of the division by a zero child
count, which is instrumented explicitly, see zeroDivCount below).

JavaScript object identity is modelled by an allocation counter: every object
allocated by the builder receives a fresh oid, and the parentNode reference a
child holds is recorded as the oid of the parent object (the reference is
cyclic in JavaScript and so cannot be stored structurally).  The
previousElementSibling / nextElementSibling references wired in lines 218-225
of the source are likewise cyclic; no claim concerns them and they are not
recorded.

Element.childElementCount equals children.length for every real DOM element
and for every snapshot the builder itself produces (the builder pushes exactly
childElementCount children), so the model reads the child count off the
children list.
-/

namespace DomToCanvas

/-- A DOM-like node: the common shape of live DOM elements and of the
snapshot nodes built by traverseDomNodes (src/dom-to-canvas.js lines
130-153).  The JavaScript id property is absent/empty when unset; both
falsy states are modelled by the empty string.  firstElementChild and
lastElementChild point down into the children, so they can be stored
structurally; parentNode is stored as the oid of the parent object. -/
inductive DNode : Type where
  | mk
      (oid : Nat)
      (tagName : String)
      (id : String)
      (attributes : List (String × String))
      (depth : Nat)
      (start : ℚ)
      (stop : ℚ)
      (parentOid : Option Nat)
      (firstElementChild : Option DNode)
      (lastElementChild : Option DNode)
      (children : List DNode)

def DNode.oid : DNode → Nat
  | .mk o _ _ _ _ _ _ _ _ _ _ => o

def DNode.tagName : DNode → String
  | .mk _ t _ _ _ _ _ _ _ _ _ => t

def DNode.id : DNode → String
  | .mk _ _ i _ _ _ _ _ _ _ _ => i

def DNode.attributes : DNode → List (String × String)
  | .mk _ _ _ a _ _ _ _ _ _ _ => a

def DNode.depth : DNode → Nat
  | .mk _ _ _ _ d _ _ _ _ _ _ => d

/-- The JavaScript field named start. -/
def DNode.start : DNode → ℚ
  | .mk _ _ _ _ _ s _ _ _ _ _ => s

/-- The JavaScript field named end (a Lean keyword, hence stop here). -/
def DNode.stop : DNode → ℚ
  | .mk _ _ _ _ _ _ e _ _ _ _ => e

def DNode.parentOid : DNode → Option Nat
  | .mk _ _ _ _ _ _ _ p _ _ _ => p

def DNode.firstElementChild : DNode → Option DNode
  | .mk _ _ _ _ _ _ _ _ f _ _ => f

def DNode.lastElementChild : DNode → Option DNode
  | .mk _ _ _ _ _ _ _ _ _ l _ => l

def DNode.children : DNode → List DNode
  | .mk _ _ _ _ _ _ _ _ _ _ c => c

/-- Replace the oid of the root object only (used to model the fresh object
allocated by Object.assign in createDOMLikeObject, line 260). -/
def DNode.setOid (k : Nat) : DNode → DNode
  | .mk _ t i a d s e p f l c => .mk k t i a d s e p f l c

/-- The docParams object literal of createDOMLikeObject (lines 243-257).
The buckets and direct references hold object references in JavaScript;
they are recorded as oids. -/
structure DocParams where
  documentElement : Option Nat
  head : Option Nat
  body : Option Nat
  ids : List (String × Nat)
  links : List Nat
  images : List Nat
  scripts : List Nat
  forms : List Nat
  largestDepth : Nat

def initialDocParams : DocParams :=
  { documentElement := none, head := none, body := none, ids := [], links := [],
    images := [], scripts := [], forms := [], largestDepth := 0 }

/-- Build-time state threaded through the traversal: the allocation counter
(object identity), the mutable docParams, and an instrumentation counter
recording how many times the expression (end - start) / childCount on line
199 was evaluated with childCount equal to zero. -/
structure BuildSt where
  ctr : Nat
  dp : DocParams
  zeroDivCount : Nat

/-- JavaScript object maps preserve first-insertion order and overwrite on
re-assignment; docParams.ids[node.id] = newNode (line 189). -/
def idsInsert (key : String) (v : Nat) : List (String × Nat) → List (String × Nat)
  | [] => [(key, v)]
  | (k, w) :: rest => if k = key then (k, v) :: rest else (k, w) :: idsInsert key v rest

/-- The docRefTagsMap dispatch (lines 27-58 and 193-195): for recognized tags
the docParams are updated; the A and AREA handlers register into links only
when the source node has an href attribute (for a NamedNodeMap, the named
accessor is truthy exactly when the attribute is present). -/
def docRefTagsMap (tagName : String) (srcAttributes : List (String × String))
    (newOid : Nat) (dp : DocParams) : DocParams :=
  if tagName = "HTML" then { dp with documentElement := some newOid }
  else if tagName = "HEAD" then { dp with head := some newOid }
  else if tagName = "BODY" then { dp with body := some newOid }
  else if tagName = "FORM" then { dp with forms := dp.forms ++ [newOid] }
  else if tagName = "SCRIPT" then { dp with scripts := dp.scripts ++ [newOid] }
  else if tagName = "A" ∨ tagName = "AREA" then
    if (srcAttributes.lookup "href").isSome then { dp with links := dp.links ++ [newOid] }
    else dp
  else if tagName = "IMG" then { dp with images := dp.images ++ [newOid] }
  else dp

mutual

/-- Shallow embedding of traverseDomNodes (lines 109-228).  In source order:
update docParams.largestDepth (110-112); allocate newNode (130-153, modelled
by drawing a fresh oid); copy the attributes (155-184: for a real
NamedNodeMap the entries are copied into a plain map, for a snapshot source
the plain map is reused, both yielding the same mapping); register the id
(186-190); dispatch on docRefTagsMap (192-195); compute
width = (end - start) / childCount (197-199, instrumented by zeroDivCount
when childCount is zero: JavaScript produces a non-finite number there, and
the value is never used because the loop body does not run); build the
children over the equal sub-intervals (203-209); set
firstElementChild/lastElementChild (212-215, null for zero children, which
head? and getLast? reproduce). -/
def traverseDomNodes : DNode → Option Nat → Nat → ℚ → ℚ → BuildSt → DNode × BuildSt
  | .mk _ tagName id attributes _ _ _ _ _ _ srcChildren, parentNode, depth, start, stop, st =>
    let dp0 := if depth > st.dp.largestDepth then { st.dp with largestDepth := depth } else st.dp
    let newOid := st.ctr
    let dp1 := if id ≠ "" then { dp0 with ids := idsInsert id newOid dp0.ids } else dp0
    let dp2 := docRefTagsMap tagName attributes newOid dp1
    let childCount := srcChildren.length
    let st1 : BuildSt :=
      { ctr := st.ctr + 1, dp := dp2,
        zeroDivCount := if childCount = 0 then st.zeroDivCount + 1 else st.zeroDivCount }
    let res := traverseSiblings srcChildren newOid (depth + 1) start
      ((stop - start) / (childCount : ℚ)) st1 0
    (DNode.mk newOid tagName id attributes depth start stop parentNode
      res.1.head? res.1.getLast? res.1, res.2)
  termination_by structural n => n

/-- The child loop of traverseDomNodes (lines 203-209): the i-th child is
built over [start + i * width, start + i * width + width) at depth + 1, with
the parent reference pointing at the newNode object being completed. -/
def traverseSiblings : List DNode → Nat → Nat → ℚ → ℚ → BuildSt → Nat → List DNode × BuildSt
  | [], _, _, _, _, st, _ => ([], st)
  | c :: rest, parentOid, childDepth, start, width, st, i =>
    let childStart := start + (i : ℚ) * width
    let res1 := traverseDomNodes c (some parentOid) childDepth childStart (childStart + width) st
    let res2 := traverseSiblings rest parentOid childDepth start width res1.2 (i + 1)
    (res1.1 :: res2.1, res2.2)
  termination_by structural l => l

end

/-- The augmented document returned by createDOMLikeObject (lines 259-261):
Object.assign({}, newDocument, docParams) allocates one fresh object carrying
the node fields of newDocument together with the docParams fields.  The fresh
allocation is modelled by giving the root copy a fresh oid; all other fields
(children included) are shared. -/
structure AugDoc where
  root : DNode
  documentElement : Option Nat
  head : Option Nat
  body : Option Nat
  ids : List (String × Nat)
  links : List Nat
  images : List Nat
  scripts : List Nat
  forms : List Nat
  largestDepth : Nat

/-- Shallow embedding of createDOMLikeObject (lines 239-262).  The allocation
counter ctr is an explicit input so that object identities are reproducible;
the returned BuildSt carries the counter past the Object.assign copy and the
zero-division instrumentation count. -/
def createDOMLikeObject (myDoc : DNode) (start stop : ℚ) (ctr : Nat) : AugDoc × BuildSt :=
  let st0 : BuildSt := { ctr := ctr, dp := initialDocParams, zeroDivCount := 0 }
  let res := traverseDomNodes myDoc none 0 start stop st0
  ({ root := res.1.setOid res.2.ctr,
     documentElement := res.2.dp.documentElement, head := res.2.dp.head,
     body := res.2.dp.body, ids := res.2.dp.ids, links := res.2.dp.links,
     images := res.2.dp.images, scripts := res.2.dp.scripts, forms := res.2.dp.forms,
     largestDepth := res.2.dp.largestDepth },
   { res.2 with ctr := res.2.ctr + 1 })

/-- The marker radius (line 87). -/
def radius : ℚ := 5

/-- The horizontal marker center of a node, vCenter in searchForNodeWithXY
(line 347) and x in drawNodes (line 272). -/
def vCenter (node : DNode) : ℚ := node.start + (node.stop - node.start) / 2

/-- The vertical marker center of a node, hCenter in searchForNodeWithXY
(line 348) and y in drawNodes (line 273); cellHeight is the module-level
variable set by the last render. -/
def hCenter (cellHeight : ℚ) (node : DNode) : ℚ := (node.depth : ℚ) * cellHeight + 20

/-- The axis-aligned marker box test of searchForNodeWithXY (lines 349-351):
isInX and isInY. -/
def inMarkerBox (cellHeight : ℚ) (node : DNode) (x y : ℚ) : Prop :=
  (x ≥ vCenter node - radius ∧ x ≤ vCenter node + radius) ∧
  (y ≥ hCenter cellHeight node - radius ∧ y ≤ hCenter cellHeight node + radius)

instance (cellHeight : ℚ) (node : DNode) (x y : ℚ) :
    Decidable (inMarkerBox cellHeight node x y) :=
  inferInstanceAs (Decidable (_ ∧ _))

mutual

/-- Shallow embedding of searchForNodeWithXY (lines 346-373): if the query
point lies in the node marker box, the node is returned at once; otherwise
the children are scanned in order and the first child whose interval strictly
contains x is recursed into, its result being returned directly; if no child
interval strictly contains x the result is null. -/
def searchForNodeWithXY (cellHeight : ℚ) : DNode → ℚ → ℚ → Option DNode
  | node@(.mk _ _ _ _ _ _ _ _ _ _ children), x, y =>
    if inMarkerBox cellHeight node x y then some node
    else searchChildren cellHeight children x y
  termination_by structural n => n

/-- The child scan of searchForNodeWithXY (lines 359-370): note the strict
test x > child.start && x < child.end, and that the recursion result is
returned immediately even when it is null. -/
def searchChildren (cellHeight : ℚ) : List DNode → ℚ → ℚ → Option DNode
  | [], _, _ => none
  | child :: rest, x, y =>
    if x > child.start ∧ x < child.stop then searchForNodeWithXY cellHeight child x y
    else searchChildren cellHeight rest x y
  termination_by structural l => l

end

/-- The module-level interaction state (lines 89-96): the tree currently
displayed, the navigation stack (a JavaScript array used as a stack: push and
pop at the tail), the cellHeight set by the last render, and the allocation
counter for object identities. -/
structure CState where
  currentTree : AugDoc
  treeStack : List AugDoc
  cellHeight : ℚ
  ctr : Nat

/-- Shallow embedding of handleCanvasClick (lines 383-429).  The returned
Bool records whether any drawing-surface call was issued (the clearRect /
fillRect / arrow / drawNodes sequence of lines 411-428 runs in both
state-changing branches, and no drawing call at all is made on a hit-test
miss, line 402).  The corner condition mirrors
x < 20 && y < 20 && treeStack.length. -/
def handleCanvasClick (x y canvasWidth canvasHeight : ℚ) (st : CState) : CState × Bool :=
  if h : (x < 20 ∧ y < 20) ∧ st.treeStack.length ≠ 0 then
    let domLike := st.treeStack.getLast (List.length_pos.mp (Nat.pos_of_ne_zero h.2))
    ({ currentTree := domLike, treeStack := st.treeStack.dropLast,
       cellHeight := canvasHeight / ((domLike.largestDepth : ℚ) + 1), ctr := st.ctr }, true)
  else
    match searchForNodeWithXY st.cellHeight st.currentTree.root x y with
    | none => (st, false)
    | some found =>
      let res := createDOMLikeObject found 0 canvasWidth st.ctr
      ({ currentTree := res.1, treeStack := st.treeStack ++ [st.currentTree],
         cellHeight := canvasHeight / ((res.1.largestDepth : ℚ) + 1), ctr := res.2.ctr }, true)

/-- In JavaScript, instanceof applied to a primitive boolean value is false
for every constructor: a boolean is not an object. -/
def boolInstanceOfHTMLDocument (_b : Bool) : Bool := false

/-- The guard of drawDOM (line 488) as written in the source:
the expression !myDocument instanceof HTMLDocument parses as
(!myDocument) instanceof HTMLDocument, so the value tested by instanceof is
the primitive boolean !myDocument, never the document itself. -/
def drawDOMGuard (myDocumentTruthy : Bool) : Bool :=
  boolInstanceOfHTMLDocument (! myDocumentTruthy)

/-- Shallow embedding of drawDOM (lines 487-540).  The two Bool inputs
describe the incoming root: whether it is truthy and whether it actually is
an HTMLDocument; the mis-parenthesized guard consults only the first, through
drawDOMGuard.  When the guard does not fire, drawDOM builds a snapshot,
overwrites currentTree and cellHeight, and clears and repaints the surface
(the returned Bool records that drawing-surface calls were issued).  Listener
registration (lines 528-539) has no bearing on any claim and is not
modelled. -/
def drawDOM (canvasWidth canvasHeight : ℚ) (myDocument : DNode)
    (myDocumentTruthy _myDocumentIsHTMLDocument : Bool) (st : CState) : CState × Bool :=
  if drawDOMGuard myDocumentTruthy then (st, false)
  else
    let res := createDOMLikeObject myDocument 0 canvasWidth st.ctr
    ({ currentTree := res.1, treeStack := st.treeStack,
       cellHeight := canvasHeight / ((res.1.largestDepth : ℚ) + 1), ctr := res.2.ctr }, true)

/-- Tree positions: the node reached from t by taking the i-th element child
at each step. -/
def nodeAtPath : DNode → List Nat → Option DNode
  | n, [] => some n
  | n, i :: p =>
    match n.children.get? i with
    | some c => nodeAtPath c p
    | none => none
  termination_by structural _ l => l

mutual

/-- All nodes of a tree in visit order of the builder (node first, then the
children subtrees left to right). -/
def preorder : DNode → List DNode
  | node@(.mk _ _ _ _ _ _ _ _ _ _ children) => node :: preorderList children
  termination_by structural n => n

def preorderList : List DNode → List DNode
  | [] => []
  | c :: rest => preorder c ++ preorderList rest
  termination_by structural l => l

end

/-- The width assigned to each child of a node: (end - start) / childCount
(line 199). -/
def childWidth (n : DNode) : ℚ := (n.stop - n.start) / (n.children.length : ℚ)

/-- The layout facts the builder establishes at one node: the j-th child
spans [start + j * width, start + j * width + width) at depth + 1. -/
def partitionedAt (n : DNode) : Prop :=
  ∀ j (hj : j < n.children.length),
    (n.children.get ⟨j, hj⟩).start = n.start + (j : ℚ) * childWidth n ∧
    (n.children.get ⟨j, hj⟩).stop = n.start + (j : ℚ) * childWidth n + childWidth n ∧
    (n.children.get ⟨j, hj⟩).depth = n.depth + 1

section ProjectionLemmas

variable (o : Nat) (t i : String) (a : List (String × String)) (d : Nat) (s e : ℚ)
variable (p : Option Nat) (f l : Option DNode) (c : List DNode)

@[simp] theorem DNode.oid_mk : (DNode.mk o t i a d s e p f l c).oid = o := rfl

@[simp] theorem DNode.tagName_mk : (DNode.mk o t i a d s e p f l c).tagName = t := rfl

@[simp] theorem DNode.id_mk : (DNode.mk o t i a d s e p f l c).id = i := rfl

@[simp] theorem DNode.attributes_mk : (DNode.mk o t i a d s e p f l c).attributes = a := rfl

@[simp] theorem DNode.depth_mk : (DNode.mk o t i a d s e p f l c).depth = d := rfl

@[simp] theorem DNode.start_mk : (DNode.mk o t i a d s e p f l c).start = s := rfl

@[simp] theorem DNode.stop_mk : (DNode.mk o t i a d s e p f l c).stop = e := rfl

@[simp] theorem DNode.parentOid_mk : (DNode.mk o t i a d s e p f l c).parentOid = p := rfl

@[simp] theorem DNode.firstElementChild_mk :
    (DNode.mk o t i a d s e p f l c).firstElementChild = f := rfl

@[simp] theorem DNode.lastElementChild_mk :
    (DNode.mk o t i a d s e p f l c).lastElementChild = l := rfl

@[simp] theorem DNode.children_mk : (DNode.mk o t i a d s e p f l c).children = c := rfl

@[simp] theorem DNode.setOid_mk (k : Nat) :
    (DNode.mk o t i a d s e p f l c).setOid k = DNode.mk k t i a d s e p f l c := rfl

end ProjectionLemmas

@[simp] theorem DNode.oid_setOid (k : Nat) (n : DNode) : (n.setOid k).oid = k := by
  cases n; rfl

@[simp] theorem DNode.tagName_setOid (k : Nat) (n : DNode) :
    (n.setOid k).tagName = n.tagName := by cases n; rfl

@[simp] theorem DNode.id_setOid (k : Nat) (n : DNode) : (n.setOid k).id = n.id := by
  cases n; rfl

@[simp] theorem DNode.attributes_setOid (k : Nat) (n : DNode) :
    (n.setOid k).attributes = n.attributes := by cases n; rfl

@[simp] theorem DNode.depth_setOid (k : Nat) (n : DNode) : (n.setOid k).depth = n.depth := by
  cases n; rfl

@[simp] theorem DNode.start_setOid (k : Nat) (n : DNode) : (n.setOid k).start = n.start := by
  cases n; rfl

@[simp] theorem DNode.stop_setOid (k : Nat) (n : DNode) : (n.setOid k).stop = n.stop := by
  cases n; rfl

@[simp] theorem DNode.parentOid_setOid (k : Nat) (n : DNode) :
    (n.setOid k).parentOid = n.parentOid := by cases n; rfl

@[simp] theorem DNode.children_setOid (k : Nat) (n : DNode) :
    (n.setOid k).children = n.children := by cases n; rfl

/-- Membership in the children list decreases the structural size. -/
theorem DNode.sizeOf_lt_of_mem_children {c n : DNode} (h : c ∈ n.children) :
    sizeOf c < sizeOf n := by
  cases n with
  | mk o t i a d s e p f l cs =>
    have h1 : sizeOf c < sizeOf cs := List.sizeOf_lt_of_mem (by simpa using h)
    simp only [DNode.mk.sizeOf_spec]
    omega

/-- Strong induction over a DNode via its children. -/
def DNode.strongRecOn {P : DNode → Prop} (n : DNode)
    (h : ∀ m : DNode, (∀ c ∈ m.children, P c) → P m) : P n :=
  h n (fun c hc => DNode.strongRecOn c h)
  termination_by sizeOf n
  decreasing_by exact DNode.sizeOf_lt_of_mem_children hc

/-- Unfolding lemma for traverseDomNodes, stated through the projections. -/
theorem traverseDomNodes_eq (n : DNode) (po : Option Nat) (d : Nat) (s e : ℚ) (st : BuildSt) :
    traverseDomNodes n po d s e st =
      (let dp0 := if d > st.dp.largestDepth then { st.dp with largestDepth := d } else st.dp
       let dp1 := if n.id ≠ "" then { dp0 with ids := idsInsert n.id st.ctr dp0.ids } else dp0
       let dp2 := docRefTagsMap n.tagName n.attributes st.ctr dp1
       let st1 : BuildSt :=
         { ctr := st.ctr + 1, dp := dp2,
           zeroDivCount :=
             if n.children.length = 0 then st.zeroDivCount + 1 else st.zeroDivCount }
       let res := traverseSiblings n.children st.ctr (d + 1) s
         ((e - s) / (n.children.length : ℚ)) st1 0
       (DNode.mk st.ctr n.tagName n.id n.attributes d s e po
         res.1.head? res.1.getLast? res.1, res.2)) := by
  cases n; rfl

/-- Unfolding lemma for searchForNodeWithXY. -/
theorem searchForNodeWithXY_eq (cellHeight : ℚ) (n : DNode) (x y : ℚ) :
    searchForNodeWithXY cellHeight n x y =
      if inMarkerBox cellHeight n x y then some n
      else searchChildren cellHeight n.children x y := by
  cases n; rfl

/-- Unfolding lemma for preorder. -/
theorem preorder_eq (n : DNode) : preorder n = n :: preorderList n.children := by
  cases n; rfl

/-- docRefTagsMap touches links exactly for an A or AREA tag with an href
attribute present. -/
theorem docRefTagsMap_links (tg : String) (attrs : List (String × String))
    (newOid : Nat) (dp : DocParams) :
    (docRefTagsMap tg attrs newOid dp).links = dp.links ++
      (if (tg = "A" ∨ tg = "AREA") ∧ (attrs.lookup "href").isSome
       then [newOid] else []) := by
  unfold docRefTagsMap
  split_ifs with h1 h2 h3 h4 h5 h6 h7 h8 <;> simp_all

/-- docRefTagsMap touches images exactly for an IMG tag. -/
theorem docRefTagsMap_images (tg : String) (attrs : List (String × String))
    (newOid : Nat) (dp : DocParams) :
    (docRefTagsMap tg attrs newOid dp).images = dp.images ++
      (if tg = "IMG" then [newOid] else []) := by
  unfold docRefTagsMap
  split_ifs with h1 h2 h3 h4 h5 h6 h7 h8 <;> simp_all

/-- The result of one traverseDomNodes call, destructured: the allocated node
carries the copied source fields and the interval and depth arguments; the
children are produced by traverseSiblings from an intermediate state whose
counter is one past the incoming one and whose link and image buckets have
been extended according to the current tag. -/
theorem traverseDomNodes_destruct (n : DNode) (po : Option Nat) (d : Nat) (s e : ℚ)
    (st : BuildSt) :
    ∃ st1 : BuildSt,
      st1.ctr = st.ctr + 1 ∧
      st1.dp.links = st.dp.links ++
        (if (n.tagName = "A" ∨ n.tagName = "AREA") ∧ (n.attributes.lookup "href").isSome
         then [st.ctr] else []) ∧
      st1.dp.images = st.dp.images ++ (if n.tagName = "IMG" then [st.ctr] else []) ∧
      (traverseDomNodes n po d s e st).1 =
        DNode.mk st.ctr n.tagName n.id n.attributes d s e po
          (traverseSiblings n.children st.ctr (d + 1) s
            ((e - s) / (n.children.length : ℚ)) st1 0).1.head?
          (traverseSiblings n.children st.ctr (d + 1) s
            ((e - s) / (n.children.length : ℚ)) st1 0).1.getLast?
          (traverseSiblings n.children st.ctr (d + 1) s
            ((e - s) / (n.children.length : ℚ)) st1 0).1 ∧
      (traverseDomNodes n po d s e st).2 =
        (traverseSiblings n.children st.ctr (d + 1) s
          ((e - s) / (n.children.length : ℚ)) st1 0).2 := by
  rw [traverseDomNodes_eq]
  refine ⟨_, rfl, ?_, ?_, rfl, rfl⟩
  · rw [docRefTagsMap_links]
    split_ifs <;> simp_all
  · rw [docRefTagsMap_images]
    split_ifs <;> simp_all

theorem traverse_fst_oid (n : DNode) (po : Option Nat) (d : Nat) (s e : ℚ) (st : BuildSt) :
    (traverseDomNodes n po d s e st).1.oid = st.ctr := by
  obtain ⟨st1, -, -, -, hfst, -⟩ := traverseDomNodes_destruct n po d s e st
  rw [hfst]; simp

theorem traverse_fst_tagName (n : DNode) (po : Option Nat) (d : Nat) (s e : ℚ)
    (st : BuildSt) : (traverseDomNodes n po d s e st).1.tagName = n.tagName := by
  obtain ⟨st1, -, -, -, hfst, -⟩ := traverseDomNodes_destruct n po d s e st
  rw [hfst]; simp

theorem traverse_fst_attributes (n : DNode) (po : Option Nat) (d : Nat) (s e : ℚ)
    (st : BuildSt) : (traverseDomNodes n po d s e st).1.attributes = n.attributes := by
  obtain ⟨st1, -, -, -, hfst, -⟩ := traverseDomNodes_destruct n po d s e st
  rw [hfst]; simp

theorem traverse_fst_depth (n : DNode) (po : Option Nat) (d : Nat) (s e : ℚ)
    (st : BuildSt) : (traverseDomNodes n po d s e st).1.depth = d := by
  obtain ⟨st1, -, -, -, hfst, -⟩ := traverseDomNodes_destruct n po d s e st
  rw [hfst]; simp

theorem traverse_fst_start (n : DNode) (po : Option Nat) (d : Nat) (s e : ℚ)
    (st : BuildSt) : (traverseDomNodes n po d s e st).1.start = s := by
  obtain ⟨st1, -, -, -, hfst, -⟩ := traverseDomNodes_destruct n po d s e st
  rw [hfst]; simp

theorem traverse_fst_stop (n : DNode) (po : Option Nat) (d : Nat) (s e : ℚ)
    (st : BuildSt) : (traverseDomNodes n po d s e st).1.stop = e := by
  obtain ⟨st1, -, -, -, hfst, -⟩ := traverseDomNodes_destruct n po d s e st
  rw [hfst]; simp

theorem traverse_fst_parentOid (n : DNode) (po : Option Nat) (d : Nat) (s e : ℚ)
    (st : BuildSt) : (traverseDomNodes n po d s e st).1.parentOid = po := by
  obtain ⟨st1, -, -, -, hfst, -⟩ := traverseDomNodes_destruct n po d s e st
  rw [hfst]; simp

/-- traverseSiblings produces one node per source child. -/
theorem traverseSiblings_length (l : List DNode) :
    ∀ (po cd : Nat) (s w : ℚ) (st : BuildSt) (i : Nat),
      (traverseSiblings l po cd s w st i).1.length = l.length := by
  induction l with
  | nil => intro po cd s w st i; rfl
  | cons c rest ih =>
    intro po cd s w st i
    simp only [traverseSiblings, List.length_cons]
    rw [ih]

theorem traverse_fst_children_length (n : DNode) (po : Option Nat) (d : Nat) (s e : ℚ)
    (st : BuildSt) :
    (traverseDomNodes n po d s e st).1.children.length = n.children.length := by
  obtain ⟨st1, -, -, -, hfst, -⟩ := traverseDomNodes_destruct n po d s e st
  rw [hfst]; simp [traverseSiblings_length]

/-- The j-th node built by traverseSiblings spans
[s + (i + j) * w, s + (i + j) * w + w) at depth cd with parent po. -/
theorem traverseSiblings_get (l : List DNode) :
    ∀ (po cd : Nat) (s w : ℚ) (st : BuildSt) (i j : Nat)
      (hj : j < (traverseSiblings l po cd s w st i).1.length),
      ((traverseSiblings l po cd s w st i).1.get ⟨j, hj⟩).start = s + ((i + j : Nat) : ℚ) * w ∧
      ((traverseSiblings l po cd s w st i).1.get ⟨j, hj⟩).stop =
        s + ((i + j : Nat) : ℚ) * w + w ∧
      ((traverseSiblings l po cd s w st i).1.get ⟨j, hj⟩).depth = cd ∧
      ((traverseSiblings l po cd s w st i).1.get ⟨j, hj⟩).parentOid = some po := by
  induction l with
  | nil =>
    intro po cd s w st i j hj
    simp [traverseSiblings] at hj
  | cons c rest ih =>
    intro po cd s w st i j hj
    match j with
    | 0 =>
      simp only [traverseSiblings, List.get]
      refine ⟨?_, ?_, ?_, ?_⟩
      · rw [traverse_fst_start]; norm_num
      · rw [traverse_fst_stop]; norm_num
      · rw [traverse_fst_depth]
      · rw [traverse_fst_parentOid]
    | j' + 1 =>
      have hj2 : j' < (traverseSiblings rest po cd s w
          (traverseDomNodes c (some po) cd (s + (i : ℚ) * w) (s + (i : ℚ) * w + w) st).2
          (i + 1)).1.length := by
        have := hj
        simp only [traverseSiblings, List.length_cons] at this
        omega
      have h3 := ih po cd s w
        (traverseDomNodes c (some po) cd (s + (i : ℚ) * w) (s + (i : ℚ) * w + w) st).2
        (i + 1) j' hj2
      simp only [traverseSiblings, List.get]
      refine ⟨?_, ?_, ?_, ?_⟩
      · rw [h3.1]; push_cast; ring
      · rw [h3.2.1]; push_cast; ring
      · exact h3.2.2.1
      · exact h3.2.2.2

/-- Every node in a traverseSiblings output is the result of some
traverseDomNodes call on some member of the input list. -/
theorem traverseSiblings_mem (l : List DNode) :
    ∀ (po cd : Nat) (s w : ℚ) (st : BuildSt) (i : Nat) (k : DNode),
      k ∈ (traverseSiblings l po cd s w st i).1 →
      ∃ c ∈ l, ∃ (po2 : Option Nat) (d2 : Nat) (s2 e2 : ℚ) (st2 : BuildSt),
        k = (traverseDomNodes c po2 d2 s2 e2 st2).1 := by
  induction l with
  | nil => intro po cd s w st i k hk; simp [traverseSiblings] at hk
  | cons c rest ih =>
    intro po cd s w st i k hk
    simp only [traverseSiblings, List.mem_cons] at hk
    rcases hk with hk | hk
    · exact ⟨c, List.mem_cons_self c rest, _, _, _, _, _, hk⟩
    · obtain ⟨c2, hc2, rest2⟩ := ih po cd s w
        (traverseDomNodes c (some po) cd (s + (i : ℚ) * w) (s + (i : ℚ) * w + w) st).2
        (i + 1) k hk
      exact ⟨c2, List.mem_cons_of_mem c hc2, rest2⟩

theorem self_mem_preorder (n : DNode) : n ∈ preorder n := by
  rw [preorder_eq]; exact List.mem_cons_self n _

theorem mem_preorderList {x : DNode} : ∀ l : List DNode,
    x ∈ preorderList l → ∃ c ∈ l, x ∈ preorder c := by
  intro l
  induction l with
  | nil => intro h; simp [preorderList] at h
  | cons c rest ih =>
    intro h
    simp only [preorderList, List.mem_append] at h
    rcases h with h | h
    · exact ⟨c, List.mem_cons_self c rest, h⟩
    · obtain ⟨c2, hc2, hx⟩ := ih h
      exact ⟨c2, List.mem_cons_of_mem c hc2, hx⟩

theorem preorderList_mem_of_mem {x c : DNode} : ∀ l : List DNode,
    c ∈ l → x ∈ preorder c → x ∈ preorderList l := by
  intro l
  induction l with
  | nil => intro h; simp at h
  | cons c2 rest ih =>
    intro hc hx
    simp only [preorderList, List.mem_append]
    rcases List.mem_cons.mp hc with rfl | hc
    · exact Or.inl hx
    · exact Or.inr (ih hc hx)

theorem mem_preorder_of_child {x c n : DNode} (hc : c ∈ n.children)
    (hx : x ∈ preorder c) : x ∈ preorder n := by
  rw [preorder_eq]
  exact List.mem_cons_of_mem n (preorderList_mem_of_mem n.children hc hx)

theorem nodeAtPath_nil (t : DNode) : nodeAtPath t [] = some t := rfl

theorem nodeAtPath_cons (t : DNode) (i : Nat) (p : List Nat) (m : DNode) :
    nodeAtPath t (i :: p) = some m ↔
      ∃ c : DNode, t.children.get? i = some c ∧ nodeAtPath c p = some m := by
  simp only [nodeAtPath]
  cases h : t.children.get? i with
  | none => simp
  | some c => simp

theorem nodeAtPath_mem_preorder : ∀ (p : List Nat) (t m : DNode),
    nodeAtPath t p = some m → m ∈ preorder t := by
  intro p
  induction p with
  | nil =>
    intro t m h
    rw [nodeAtPath_nil, Option.some_inj] at h
    exact h ▸ self_mem_preorder t
  | cons i p ih =>
    intro t m h
    obtain ⟨c, hc, hcp⟩ := (nodeAtPath_cons t i p m).mp h
    exact mem_preorder_of_child (List.get?_mem hc) (ih c m hcp)

/-- Every node of a built tree satisfies the equal-partition layout facts. -/
theorem built_partitioned (n : DNode) :
    ∀ (po : Option Nat) (d : Nat) (s e : ℚ) (st : BuildSt) (m : DNode),
      m ∈ preorder (traverseDomNodes n po d s e st).1 → partitionedAt m := by
  induction n using DNode.strongRecOn with
  | _ n IH =>
    intro po d s e st m hm
    obtain ⟨st1, hctr, -, -, hfst, -⟩ := traverseDomNodes_destruct n po d s e st
    rw [hfst, preorder_eq] at hm
    simp only [DNode.children_mk, List.mem_cons] at hm
    rcases hm with rfl | hm
    · intro j hj
      simp only [DNode.children_mk] at hj
      have hget := traverseSiblings_get n.children st.ctr (d + 1) s
        ((e - s) / (n.children.length : ℚ)) st1 0 j hj
      have hlen : (traverseSiblings n.children st.ctr (d + 1) s
          ((e - s) / (n.children.length : ℚ)) st1 0).1.length = n.children.length :=
        traverseSiblings_length n.children st.ctr (d + 1) s _ st1 0
      constructor
      · rw [show ((DNode.mk st.ctr n.tagName n.id n.attributes d s e po _ _ _).children.get
          ⟨j, hj⟩) = ((traverseSiblings n.children st.ctr (d + 1) s
            ((e - s) / (n.children.length : ℚ)) st1 0).1.get ⟨j, hj⟩) from rfl]
        rw [hget.1]
        simp only [childWidth, DNode.stop_mk, DNode.start_mk, DNode.children_mk, hlen]
        norm_num
      constructor
      · rw [show ((DNode.mk st.ctr n.tagName n.id n.attributes d s e po _ _ _).children.get
          ⟨j, hj⟩) = ((traverseSiblings n.children st.ctr (d + 1) s
            ((e - s) / (n.children.length : ℚ)) st1 0).1.get ⟨j, hj⟩) from rfl]
        rw [hget.2.1]
        simp only [childWidth, DNode.stop_mk, DNode.start_mk, DNode.children_mk, hlen]
        norm_num
      · rw [show ((DNode.mk st.ctr n.tagName n.id n.attributes d s e po _ _ _).children.get
          ⟨j, hj⟩) = ((traverseSiblings n.children st.ctr (d + 1) s
            ((e - s) / (n.children.length : ℚ)) st1 0).1.get ⟨j, hj⟩) from rfl]
        rw [hget.2.2.1]
        simp
    · obtain ⟨k, hk, hmk⟩ := mem_preorderList _ hm
      obtain ⟨c, hc, po2, d2, s2, e2, st2, rfl⟩ :=
        traverseSiblings_mem n.children st.ctr (d + 1) s
          ((e - s) / (n.children.length : ℚ)) st1 0 k hk
      exact IH c hc po2 d2 s2 e2 st2 m hmk

/-- In a built tree, every child holds the oid of its parent object as its
parentNode reference. -/
theorem built_parents (n : DNode) :
    ∀ (po : Option Nat) (d : Nat) (s e : ℚ) (st : BuildSt) (m : DNode),
      m ∈ preorder (traverseDomNodes n po d s e st).1 →
      ∀ c ∈ m.children, c.parentOid = some m.oid := by
  induction n using DNode.strongRecOn with
  | _ n IH =>
    intro po d s e st m hm c hc
    obtain ⟨st1, hctr, -, -, hfst, -⟩ := traverseDomNodes_destruct n po d s e st
    rw [hfst, preorder_eq] at hm
    simp only [DNode.children_mk, List.mem_cons] at hm
    rcases hm with rfl | hm
    · simp only [DNode.children_mk] at hc
      obtain ⟨⟨j, hj⟩, rfl⟩ := List.mem_iff_get.mp hc
      have hget := traverseSiblings_get n.children st.ctr (d + 1) s
        ((e - s) / (n.children.length : ℚ)) st1 0 j hj
      rw [hget.2.2.2]
      simp
    · obtain ⟨k, hk, hmk⟩ := mem_preorderList _ hm
      obtain ⟨c2, hc2, po2, d2, s2, e2, st2, rfl⟩ :=
        traverseSiblings_mem n.children st.ctr (d + 1) s
          ((e - s) / (n.children.length : ℚ)) st1 0 k hk
      exact IH c2 hc2 po2 d2 s2 e2 st2 m hmk c hc

theorem siblings_ctr_aux (l : List DNode)
    (IH : ∀ c ∈ l, ∀ (po2 : Option Nat) (d2 : Nat) (s2 e2 : ℚ) (st2 : BuildSt),
      st2.ctr < (traverseDomNodes c po2 d2 s2 e2 st2).2.ctr) :
    ∀ (po cd : Nat) (s w : ℚ) (st : BuildSt) (i : Nat),
      st.ctr ≤ (traverseSiblings l po cd s w st i).2.ctr := by
  induction l with
  | nil => intro po cd s w st i; exact le_refl _
  | cons c rest ih =>
    intro po cd s w st i
    simp only [traverseSiblings]
    have h1 : st.ctr <
        (traverseDomNodes c (some po) cd (s + (i : ℚ) * w) (s + (i : ℚ) * w + w) st).2.ctr :=
      IH c (List.mem_cons_self c rest) _ _ _ _ _
    have h2 := ih (fun c2 hc2 => IH c2 (List.mem_cons_of_mem c hc2)) po cd s w
      (traverseDomNodes c (some po) cd (s + (i : ℚ) * w) (s + (i : ℚ) * w + w) st).2 (i + 1)
    omega

/-- The allocation counter strictly increases across a traverseDomNodes call. -/
theorem traverse_ctr (n : DNode) :
    ∀ (po : Option Nat) (d : Nat) (s e : ℚ) (st : BuildSt),
      st.ctr < (traverseDomNodes n po d s e st).2.ctr := by
  induction n using DNode.strongRecOn with
  | _ n IH =>
    intro po d s e st
    obtain ⟨st1, hctr, -, -, -, hsnd⟩ := traverseDomNodes_destruct n po d s e st
    rw [hsnd]
    have := siblings_ctr_aux n.children
      (fun c hc po2 d2 s2 e2 st2 => IH c hc po2 d2 s2 e2 st2)
      st.ctr (d + 1) s ((e - s) / (n.children.length : ℚ)) st1 0
    omega

/-- partitionedAt only concerns layout fields, which setOid preserves. -/
theorem partitionedAt_setOid (k : Nat) (t : DNode) (h : partitionedAt t) :
    partitionedAt (t.setOid k) := by
  cases t with
  | mk o tg i a d s e p f l c =>
    intro j hj
    simp only [DNode.setOid_mk, DNode.children_mk] at hj ⊢
    have h2 := h j hj
    simpa [childWidth] using h2

/-- Every node of a tree returned by createDOMLikeObject satisfies the
equal-partition layout facts. -/
theorem createDOM_partitioned (src : DNode) (s e : ℚ) (ctr : Nat) :
    ∀ m ∈ preorder (createDOMLikeObject src s e ctr).1.root, partitionedAt m := by
  intro m hm
  simp only [createDOMLikeObject] at hm
  set r := (traverseDomNodes src none 0 s e
    { ctr := ctr, dp := initialDocParams, zeroDivCount := 0 }).1 with hr
  set K := (traverseDomNodes src none 0 s e
    { ctr := ctr, dp := initialDocParams, zeroDivCount := 0 }).2.ctr with hK
  rw [preorder_eq, DNode.children_setOid] at hm
  rcases List.mem_cons.mp hm with rfl | hm
  · exact partitionedAt_setOid K r
      (built_partitioned src none 0 s e _ r (self_mem_preorder r))
  · exact built_partitioned src none 0 s e _ m
      (by rw [preorder_eq]; exact List.mem_cons_of_mem r hm)

/-- Subtree invariant transfer: the partition facts restrict to the subtree
rooted at a child. -/
theorem partitioned_subtree {t c : DNode} (hpart : ∀ m ∈ preorder t, partitionedAt m)
    (hc : c ∈ t.children) : ∀ m ∈ preorder c, partitionedAt m :=
  fun m hm => hpart m (mem_preorder_of_child hc hm)

/-- In a tree with the partition facts and a non-inverted root interval,
every node interval is non-inverted. -/
theorem nodeAtPath_width_nonneg :
    ∀ (p : List Nat) (t : DNode), (∀ m ∈ preorder t, partitionedAt m) →
      t.start ≤ t.stop → ∀ m, nodeAtPath t p = some m → m.start ≤ m.stop := by
  intro p
  induction p with
  | nil =>
    intro t hpart hse m hm
    rw [nodeAtPath_nil, Option.some_inj] at hm
    exact hm ▸ hse
  | cons i p ih =>
    intro t hpart hse m hm
    obtain ⟨c, hci, hcp⟩ := (nodeAtPath_cons t i p m).mp hm
    obtain ⟨hi, rfl⟩ := List.get?_eq_some.mp hci
    have hfacts := hpart t (self_mem_preorder t) i hi
    have hw : 0 ≤ childWidth t := by
      unfold childWidth
      exact div_nonneg (by linarith) (Nat.cast_nonneg _)
    have hcse : (t.children.get ⟨i, hi⟩).start ≤ (t.children.get ⟨i, hi⟩).stop := by
      rw [hfacts.1, hfacts.2.1]; linarith
    exact ih (t.children.get ⟨i, hi⟩)
      (partitioned_subtree hpart (List.get_mem t.children i hi)) hcse m hcp

/-- In a tree with the partition facts, a node with a strictly positive
interval lies inside the interval of every node on the path above it, and
those intervals are strictly positive too. -/
theorem descend_bounds :
    ∀ (p : List Nat) (t : DNode), (∀ m ∈ preorder t, partitionedAt m) →
      ∀ m, nodeAtPath t p = some m → m.start < m.stop →
        t.start ≤ m.start ∧ m.stop ≤ t.stop ∧ t.start < t.stop := by
  intro p
  induction p with
  | nil =>
    intro t hpart m hm hpos
    rw [nodeAtPath_nil, Option.some_inj] at hm
    subst hm
    exact ⟨le_refl _, le_refl _, hpos⟩
  | cons i p ih =>
    intro t hpart m hm hpos
    obtain ⟨c, hci, hcp⟩ := (nodeAtPath_cons t i p m).mp hm
    obtain ⟨hi, rfl⟩ := List.get?_eq_some.mp hci
    set c := t.children.get ⟨i, hi⟩ with hc
    have hsub := ih c (partitioned_subtree hpart (hc ▸ List.get_mem t.children i hi)) m hcp hpos
    have hfacts := hpart t (self_mem_preorder t) i hi
    have hcs : c.start = t.start + (i : ℚ) * childWidth t := hfacts.1
    have hce : c.stop = t.start + (i : ℚ) * childWidth t + childWidth t := hfacts.2.1
    have hwpos : 0 < childWidth t := by
      have : c.start < c.stop := lt_of_le_of_lt hsub.1 (lt_of_lt_of_le hpos hsub.2.1)
      rw [hcs, hce] at this
      linarith
    have hlen0 : 0 < t.children.length := Nat.lt_of_le_of_lt (Nat.zero_le i) hi
    have hlenq : ((t.children.length : ℚ)) ≠ 0 := by
      exact_mod_cast Nat.pos_iff_ne_zero.mp hlen0
    have hspan : (t.children.length : ℚ) * childWidth t = t.stop - t.start := by
      unfold childWidth
      field_simp
    have hi1 : ((i : ℚ) + 1) ≤ (t.children.length : ℚ) := by
      have : i + 1 ≤ t.children.length := hi
      exact_mod_cast this
    have hts : t.start ≤ c.start := by
      rw [hcs]
      have : 0 ≤ (i : ℚ) * childWidth t :=
        mul_nonneg (Nat.cast_nonneg _) (le_of_lt hwpos)
      linarith
    have hte : c.stop ≤ t.stop := by
      rw [hce]
      have h1 : ((i : ℚ) + 1) * childWidth t ≤ (t.children.length : ℚ) * childWidth t :=
        mul_le_mul_of_nonneg_right hi1 (le_of_lt hwpos)
      rw [hspan] at h1
      linarith
    refine ⟨le_trans hts hsub.1, le_trans hsub.2.1 hte, ?_⟩
    have h2 : 0 < (t.children.length : ℚ) * childWidth t := by
      have : (0 : ℚ) < (t.children.length : ℚ) := by exact_mod_cast hlen0
      exact mul_pos this hwpos
    rw [hspan] at h2
    linarith

/-- If the i-th child interval strictly contains x and no earlier child
interval does, the child scan recurses into the i-th child. -/
theorem searchChildren_first (cellHeight x y : ℚ) :
    ∀ (l : List DNode) (i : Nat) (c : DNode), l.get? i = some c →
      (∀ j, j < i → ∀ cj, l.get? j = some cj → ¬ (x > cj.start ∧ x < cj.stop)) →
      (x > c.start ∧ x < c.stop) →
      searchChildren cellHeight l x y = searchForNodeWithXY cellHeight c x y := by
  intro l
  induction l with
  | nil => intro i c hget; simp at hget
  | cons c0 rest ih =>
    intro i c hget hfail hin
    match i with
    | 0 =>
      rw [show ((c0 :: rest).get? 0) = some c0 from rfl, Option.some_inj] at hget
      subst hget
      simp only [searchChildren]
      rw [if_pos hin]
    | i' + 1 =>
      have h0 : ¬ (x > c0.start ∧ x < c0.stop) :=
        hfail 0 (Nat.succ_pos i') c0 rfl
      simp only [searchChildren]
      rw [if_neg h0]
      exact ih i' c hget (fun j hj cj hcj => hfail (j + 1) (Nat.succ_lt_succ hj) cj hcj) hin

/-- If no child interval strictly contains x, the child scan returns null. -/
theorem searchChildren_none (cellHeight x y : ℚ) :
    ∀ l : List DNode, (∀ c ∈ l, ¬ (x > c.start ∧ x < c.stop)) →
      searchChildren cellHeight l x y = none := by
  intro l
  induction l with
  | nil => intro h; rfl
  | cons c rest ih =>
    intro h
    simp only [searchChildren]
    rw [if_neg (h c (List.mem_cons_self c rest))]
    exact ih (fun c2 hc2 => h c2 (List.mem_cons_of_mem c hc2))

/-- A non-null child-scan result comes from recursing into some member. -/
theorem searchChildren_some (cellHeight x y : ℚ) :
    ∀ (l : List DNode) (m : DNode), searchChildren cellHeight l x y = some m →
      ∃ c ∈ l, searchForNodeWithXY cellHeight c x y = some m := by
  intro l
  induction l with
  | nil => intro m h; simp [searchChildren] at h
  | cons c rest ih =>
    intro m h
    simp only [searchChildren] at h
    by_cases hin : x > c.start ∧ x < c.stop
    · rw [if_pos hin] at h
      exact ⟨c, List.mem_cons_self c rest, h⟩
    · rw [if_neg hin] at h
      obtain ⟨c2, hc2, h2⟩ := ih m h
      exact ⟨c2, List.mem_cons_of_mem c hc2, h2⟩

/-- Soundness of the hit-test: a non-null answer lies in the marker box of
the returned node. -/
theorem search_sound (cellHeight : ℚ) (n : DNode) :
    ∀ (x y : ℚ) (m : DNode), searchForNodeWithXY cellHeight n x y = some m →
      |x - vCenter m| ≤ radius ∧ |y - hCenter cellHeight m| ≤ radius := by
  induction n using DNode.strongRecOn with
  | _ n IH =>
    intro x y m h
    rw [searchForNodeWithXY_eq] at h
    by_cases hbox : inMarkerBox cellHeight n x y
    · rw [if_pos hbox, Option.some_inj] at h
      subst h
      obtain ⟨⟨hx1, hx2⟩, hy1, hy2⟩ := hbox
      exact ⟨abs_le.mpr ⟨by linarith, by linarith⟩, abs_le.mpr ⟨by linarith, by linarith⟩⟩
    · rw [if_neg hbox] at h
      obtain ⟨c, hc, hsearch⟩ := searchChildren_some cellHeight x y n.children m h
      exact IH c hc x y m hsearch

/-- Querying the hit-test at the computed center of a node with positive
interval width returns that node, provided no node on the descent path above
it grabs the point with its own marker box first. -/
theorem search_center_generic (cellHeight : ℚ) :
    ∀ (p : List Nat) (t : DNode), (∀ m2 ∈ preorder t, partitionedAt m2) →
      ∀ m, nodeAtPath t p = some m → m.start < m.stop →
      (∀ k, k < p.length → ∀ a, nodeAtPath t (p.take k) = some a →
        ¬ inMarkerBox cellHeight a (vCenter m) (hCenter cellHeight m)) →
      searchForNodeWithXY cellHeight t (vCenter m) (hCenter cellHeight m) = some m := by
  intro p
  induction p with
  | nil =>
    intro t hpart m hm hpos hanc
    rw [nodeAtPath_nil, Option.some_inj] at hm
    subst hm
    rw [searchForNodeWithXY_eq, if_pos ?_]
    unfold inMarkerBox
    norm_num [radius]
  | cons i p ih =>
    intro t hpart m hm hpos hanc
    obtain ⟨c, hci, hceq⟩ := (nodeAtPath_cons t i p m).mp hm
    obtain ⟨hi, rfl⟩ := List.get?_eq_some.mp hci
    set c := t.children.get ⟨i, hi⟩ with hcdef
    have hsubpart : ∀ m2 ∈ preorder c, partitionedAt m2 :=
      partitioned_subtree hpart (hcdef ▸ List.get_mem t.children i hi)
    have hdb := descend_bounds p c hsubpart m hceq hpos
    have hfacts := hpart t (self_mem_preorder t) i hi
    have hwpos : 0 < childWidth t := by
      have h1 : c.start < c.stop := lt_of_le_of_lt hdb.1 (lt_of_lt_of_le hpos hdb.2.1)
      rw [hfacts.1, hfacts.2.1] at h1
      linarith
    have hx1 : m.start < vCenter m := by
      unfold vCenter; linarith
    have hx2 : vCenter m < m.stop := by
      unfold vCenter; linarith
    have hcx : vCenter m > c.start ∧ vCenter m < c.stop :=
      ⟨lt_of_le_of_lt hdb.1 hx1, lt_of_lt_of_le hx2 hdb.2.1⟩
    have hearlier : ∀ j, j < i → ∀ cj, t.children.get? j = some cj →
        ¬ (vCenter m > cj.start ∧ vCenter m < cj.stop) := by
      intro j hj cj hcj
      obtain ⟨hjlen, rfl⟩ := List.get?_eq_some.mp hcj
      have hfj := hpart t (self_mem_preorder t) j hjlen
      rintro ⟨h1, h2⟩
      have hj1 : (j : ℚ) + 1 ≤ (i : ℚ) := by exact_mod_cast hj
      have hle : (t.children.get ⟨j, hjlen⟩).stop ≤ c.start := by
        rw [hfj.2.1, hfacts.1]
        nlinarith
      linarith [hcx.1]
    have hbox : ¬ inMarkerBox cellHeight t (vCenter m) (hCenter cellHeight m) := by
      refine hanc 0 (Nat.succ_pos _) t ?_
      rw [List.take_zero, nodeAtPath_nil]
    rw [searchForNodeWithXY_eq, if_neg hbox]
    rw [searchChildren_first cellHeight (vCenter m) (hCenter cellHeight m)
      t.children i c hci hearlier hcx]
    apply ih c hsubpart m hceq hpos
    intro k hk a ha
    refine hanc (k + 1) ?_ a ?_
    · simpa using Nat.succ_lt_succ hk
    · rw [List.take_succ_cons]
      exact (nodeAtPath_cons t i (p.take k) a).mpr ⟨c, hci, ha⟩

/-- The registration condition of the A and AREA handlers (lines 43-54): a
hyperlink tag whose source attributes contain an href entry. -/
def linkKeyP (tg : String) (attrs : List (String × String)) : Bool :=
  (tg == "A" || tg == "AREA") && (attrs.lookup "href").isSome

/-- The registration condition of the IMG handler (lines 55-57). -/
def imageKeyP (tg : String) : Bool := tg == "IMG"

theorem linkKeyP_iff (tg : String) (attrs : List (String × String)) :
    linkKeyP tg attrs = true ↔ (tg = "A" ∨ tg = "AREA") ∧ (attrs.lookup "href").isSome := by
  simp [linkKeyP]

theorem if_link_eq (tg : String) (attrs : List (String × String)) (o : Nat) :
    (if (tg = "A" ∨ tg = "AREA") ∧ (attrs.lookup "href").isSome
     then [o] else ([] : List Nat)) =
      (if linkKeyP tg attrs then [o] else []) := by
  by_cases h : (tg = "A" ∨ tg = "AREA") ∧ (attrs.lookup "href").isSome
  · rw [if_pos h, if_pos ((linkKeyP_iff tg attrs).mpr h)]
  · rw [if_neg h, if_neg (fun hb => h ((linkKeyP_iff tg attrs).mp hb))]

theorem if_image_eq (tg : String) (o : Nat) :
    (if tg = "IMG" then [o] else ([] : List Nat)) =
      (if imageKeyP tg then [o] else []) := by
  by_cases h : tg = "IMG"
  · rw [if_pos h, if_pos (by simp [imageKeyP, h])]
  · rw [if_neg h, if_neg (by simp [imageKeyP, h])]

theorem siblings_links_aux (l : List DNode)
    (IH : ∀ c ∈ l, ∀ (po2 : Option Nat) (d2 : Nat) (s2 e2 : ℚ) (st2 : BuildSt),
      (traverseDomNodes c po2 d2 s2 e2 st2).2.dp.links =
        st2.dp.links ++ ((preorder (traverseDomNodes c po2 d2 s2 e2 st2).1).filter
          (fun k => linkKeyP k.tagName k.attributes)).map DNode.oid) :
    ∀ (po cd : Nat) (s w : ℚ) (st : BuildSt) (i : Nat),
      (traverseSiblings l po cd s w st i).2.dp.links =
        st.dp.links ++ ((preorderList (traverseSiblings l po cd s w st i).1).filter
          (fun k => linkKeyP k.tagName k.attributes)).map DNode.oid := by
  induction l with
  | nil => intro po cd s w st i; simp [traverseSiblings, preorderList]
  | cons c rest ih =>
    intro po cd s w st i
    simp only [traverseSiblings, preorderList, List.filter_append, List.map_append]
    rw [ih (fun c2 hc2 => IH c2 (List.mem_cons_of_mem c hc2)),
      IH c (List.mem_cons_self c rest)]
    rw [List.append_assoc]

/-- The link bucket collects exactly the oids of the visited nodes whose tag
is A or AREA with an href attribute, in builder visit order. -/
theorem build_links (n : DNode) :
    ∀ (po : Option Nat) (d : Nat) (s e : ℚ) (st : BuildSt),
      (traverseDomNodes n po d s e st).2.dp.links =
        st.dp.links ++ ((preorder (traverseDomNodes n po d s e st).1).filter
          (fun k => linkKeyP k.tagName k.attributes)).map DNode.oid := by
  induction n using DNode.strongRecOn with
  | _ n IH =>
    intro po d s e st
    obtain ⟨st1, hctr, hlinks, -, hfst, hsnd⟩ := traverseDomNodes_destruct n po d s e st
    rw [hsnd, hfst, preorder_eq]
    rw [siblings_links_aux n.children (fun c hc => IH c hc) st.ctr (d + 1) s
      ((e - s) / (n.children.length : ℚ)) st1 0]
    rw [hlinks, if_link_eq]
    simp only [DNode.children_mk, List.filter_cons, DNode.tagName_mk, DNode.attributes_mk]
    by_cases hL : linkKeyP n.tagName n.attributes
    · rw [if_pos hL, if_pos hL]
      simp
    · rw [if_neg (by simpa using hL), if_neg (by simpa using hL)]
      simp

theorem siblings_images_aux (l : List DNode)
    (IH : ∀ c ∈ l, ∀ (po2 : Option Nat) (d2 : Nat) (s2 e2 : ℚ) (st2 : BuildSt),
      (traverseDomNodes c po2 d2 s2 e2 st2).2.dp.images =
        st2.dp.images ++ ((preorder (traverseDomNodes c po2 d2 s2 e2 st2).1).filter
          (fun k => imageKeyP k.tagName)).map DNode.oid) :
    ∀ (po cd : Nat) (s w : ℚ) (st : BuildSt) (i : Nat),
      (traverseSiblings l po cd s w st i).2.dp.images =
        st.dp.images ++ ((preorderList (traverseSiblings l po cd s w st i).1).filter
          (fun k => imageKeyP k.tagName)).map DNode.oid := by
  induction l with
  | nil => intro po cd s w st i; simp [traverseSiblings, preorderList]
  | cons c rest ih =>
    intro po cd s w st i
    simp only [traverseSiblings, preorderList, List.filter_append, List.map_append]
    rw [ih (fun c2 hc2 => IH c2 (List.mem_cons_of_mem c hc2)),
      IH c (List.mem_cons_self c rest)]
    rw [List.append_assoc]

/-- The image bucket collects exactly the oids of the visited IMG nodes, in
builder visit order. -/
theorem build_images (n : DNode) :
    ∀ (po : Option Nat) (d : Nat) (s e : ℚ) (st : BuildSt),
      (traverseDomNodes n po d s e st).2.dp.images =
        st.dp.images ++ ((preorder (traverseDomNodes n po d s e st).1).filter
          (fun k => imageKeyP k.tagName)).map DNode.oid := by
  induction n using DNode.strongRecOn with
  | _ n IH =>
    intro po d s e st
    obtain ⟨st1, hctr, -, himages, hfst, hsnd⟩ := traverseDomNodes_destruct n po d s e st
    rw [hsnd, hfst, preorder_eq]
    rw [siblings_images_aux n.children (fun c hc => IH c hc) st.ctr (d + 1) s
      ((e - s) / (n.children.length : ℚ)) st1 0]
    rw [himages, if_image_eq]
    simp only [DNode.children_mk, List.filter_cons, DNode.tagName_mk]
    by_cases hL : imageKeyP n.tagName
    · rw [if_pos hL, if_pos hL]
      simp
    · rw [if_neg (by simpa using hL), if_neg (by simpa using hL)]
      simp

theorem siblings_keys_aux (l : List DNode)
    (IH : ∀ c ∈ l, ∀ (po2 : Option Nat) (d2 : Nat) (s2 e2 : ℚ) (st2 : BuildSt),
      (preorder (traverseDomNodes c po2 d2 s2 e2 st2).1).map
          (fun k => (k.tagName, k.attributes)) =
        (preorder c).map (fun k => (k.tagName, k.attributes))) :
    ∀ (po cd : Nat) (s w : ℚ) (st : BuildSt) (i : Nat),
      (preorderList (traverseSiblings l po cd s w st i).1).map
          (fun k => (k.tagName, k.attributes)) =
        (preorderList l).map (fun k => (k.tagName, k.attributes)) := by
  induction l with
  | nil => intro po cd s w st i; simp [traverseSiblings, preorderList]
  | cons c rest ih =>
    intro po cd s w st i
    simp only [traverseSiblings, preorderList, List.map_append]
    rw [ih (fun c2 hc2 => IH c2 (List.mem_cons_of_mem c hc2)),
      IH c (List.mem_cons_self c rest)]

/-- The built tree has the same tag and attribute sequence, in visit order,
as the source tree. -/
theorem build_preserves_keys (n : DNode) :
    ∀ (po : Option Nat) (d : Nat) (s e : ℚ) (st : BuildSt),
      (preorder (traverseDomNodes n po d s e st).1).map
          (fun k => (k.tagName, k.attributes)) =
        (preorder n).map (fun k => (k.tagName, k.attributes)) := by
  induction n using DNode.strongRecOn with
  | _ n IH =>
    intro po d s e st
    obtain ⟨st1, -, -, -, hfst, -⟩ := traverseDomNodes_destruct n po d s e st
    rw [hfst, preorder_eq]
    rw [preorder_eq n]
    simp only [DNode.children_mk, List.map_cons, DNode.tagName_mk, DNode.attributes_mk]
    rw [siblings_keys_aux n.children (fun c hc => IH c hc) st.ctr (d + 1) s
      ((e - s) / (n.children.length : ℚ)) st1 0]

/-- Filtering by a predicate that only reads the tag and attributes gives
lists of the same length on the built tree and on the source tree. -/
theorem filter_length_key {α : Type} (key : DNode → α) (q : α → Bool) :
    ∀ l1 l2 : List DNode, l1.map key = l2.map key →
      (l1.filter (fun k => q (key k))).length = (l2.filter (fun k => q (key k))).length := by
  intro l1 l2 h
  have h1 : (l1.filter (fun k => q (key k))).length = (l1.map key).countP q := by
    rw [List.countP_map, ← List.countP_eq_length_filter]
    rfl
  have h2 : (l2.filter (fun k => q (key k))).length = (l2.map key).countP q := by
    rw [List.countP_map, ← List.countP_eq_length_filter]
    rfl
  rw [h1, h2, h]

/-! Reduction lemmas for docRefTagsMap at the concrete tags appearing in the
example trees below; they let the if-chain over tag names evaluate. -/

theorem docRefTagsMap_apply_HTML (a : List (String × String)) (o : Nat) (dp : DocParams) :
    docRefTagsMap "HTML" a o dp = { dp with documentElement := some o } := by
  unfold docRefTagsMap
  rw [if_pos rfl]

theorem docRefTagsMap_apply_DIV (a : List (String × String)) (o : Nat) (dp : DocParams) :
    docRefTagsMap "DIV" a o dp = dp := by
  unfold docRefTagsMap
  rw [if_neg (by decide), if_neg (by decide), if_neg (by decide), if_neg (by decide),
    if_neg (by decide), if_neg (by decide), if_neg (by decide)]

theorem docRefTagsMap_apply_SPAN (a : List (String × String)) (o : Nat) (dp : DocParams) :
    docRefTagsMap "SPAN" a o dp = dp := by
  unfold docRefTagsMap
  rw [if_neg (by decide), if_neg (by decide), if_neg (by decide), if_neg (by decide),
    if_neg (by decide), if_neg (by decide), if_neg (by decide)]

theorem docRefTagsMap_apply_P (a : List (String × String)) (o : Nat) (dp : DocParams) :
    docRefTagsMap "P" a o dp = dp := by
  unfold docRefTagsMap
  rw [if_neg (by decide), if_neg (by decide), if_neg (by decide), if_neg (by decide),
    if_neg (by decide), if_neg (by decide), if_neg (by decide)]

theorem docRefTagsMap_apply_IMG (a : List (String × String)) (o : Nat) (dp : DocParams) :
    docRefTagsMap "IMG" a o dp = { dp with images := dp.images ++ [o] } := by
  unfold docRefTagsMap
  rw [if_neg (by decide), if_neg (by decide), if_neg (by decide), if_neg (by decide),
    if_neg (by decide), if_neg (by decide), if_pos (by decide)]

theorem docRefTagsMap_apply_A (a : List (String × String)) (o : Nat) (dp : DocParams) :
    docRefTagsMap "A" a o dp =
      (if (a.lookup "href").isSome then { dp with links := dp.links ++ [o] } else dp) := by
  unfold docRefTagsMap
  rw [if_neg (by decide), if_neg (by decide), if_neg (by decide), if_neg (by decide),
    if_neg (by decide), if_pos (by decide)]

theorem lookup_href_single : (([("href", "x")] : List (String × String)).lookup "href") =
    some "x" := by decide

theorem lookup_href_nil : (([] : List (String × String)).lookup "href") = none := rfl

/-! Concrete source trees used to instantiate the claims.  The layout fields
of a source node are irrelevant to the builder (it only reads tagName, id,
attributes and children) and are set to zero. -/

/-- A childless source node. -/
def exLeaf : DNode := .mk 0 "P" "" [] 0 0 0 none none none []

def exA : DNode := .mk 0 "DIV" "" [] 0 0 0 none none none []

def exB : DNode := .mk 0 "SPAN" "" [] 0 0 0 none none none []

/-- A root with two childless children. -/
def exRootAB : DNode := .mk 0 "HTML" "" [] 0 0 0 none none none [exA, exB]

/-- A root with a single child. -/
def exRoot1 : DNode := .mk 0 "HTML" "" [] 0 0 0 none none none [exA]

/-- A DIV with one P child, used in the drill-down scenario. -/
def exA1 : DNode := .mk 0 "DIV" "" [] 0 0 0 none none none [exLeaf]

/-- The drill-down scenario source: HTML with children DIV (one P child)
and SPAN. -/
def exRootABP : DNode := .mk 0 "HTML" "" [] 0 0 0 none none none [exA1, exB]

def exImg : DNode := .mk 0 "IMG" "" [] 0 0 0 none none none []

def exAnchorHref : DNode := .mk 0 "A" "" [("href", "x")] 0 0 0 none none none []

def exAnchorBare : DNode := .mk 0 "A" "" [] 0 0 0 none none none []

/-- The indexing scenario source: HTML containing one image and two
hyperlinks, of which only the first carries an href attribute. -/
def exRootIdx : DNode := .mk 0 "HTML" "" [] 0 0 0 none none none
  [exImg, exAnchorHref, exAnchorBare]

theorem createDOM_root_start (src : DNode) (s e : ℚ) (ctr : Nat) :
    (createDOMLikeObject src s e ctr).1.root.start = s := by
  simp only [createDOMLikeObject]
  rw [DNode.start_setOid, traverse_fst_start]

theorem createDOM_root_stop (src : DNode) (s e : ℚ) (ctr : Nat) :
    (createDOMLikeObject src s e ctr).1.root.stop = e := by
  simp only [createDOMLikeObject]
  rw [DNode.stop_setOid, traverse_fst_stop]

/-- The drill-down branch of handleCanvasClick: not a corner-with-stack
click, and the hit-test finds a node. -/
theorem handleCanvasClick_drill (x y W H : ℚ) (st : CState) (A : DNode)
    (hcond : ¬ ((x < 20 ∧ y < 20) ∧ st.treeStack.length ≠ 0))
    (hA : searchForNodeWithXY st.cellHeight st.currentTree.root x y = some A) :
    handleCanvasClick x y W H st =
      ({ currentTree := (createDOMLikeObject A 0 W st.ctr).1,
         treeStack := st.treeStack ++ [st.currentTree],
         cellHeight := H / (((createDOMLikeObject A 0 W st.ctr).1.largestDepth : ℚ) + 1),
         ctr := (createDOMLikeObject A 0 W st.ctr).2.ctr }, true) := by
  unfold handleCanvasClick
  rw [dif_neg hcond, hA]

/-- The drill-up branch of handleCanvasClick: corner click with a non-empty
stack pops the most recent tree. -/
theorem handleCanvasClick_pop (x y W H : ℚ) (st : CState)
    (hxy : x < 20 ∧ y < 20) (hne : st.treeStack.length ≠ 0) :
    handleCanvasClick x y W H st =
      ({ currentTree := st.treeStack.getLast (List.length_pos.mp (Nat.pos_of_ne_zero hne)),
         treeStack := st.treeStack.dropLast,
         cellHeight := H / (((st.treeStack.getLast
           (List.length_pos.mp (Nat.pos_of_ne_zero hne))).largestDepth : ℚ) + 1),
         ctr := st.ctr }, true) := by
  unfold handleCanvasClick
  rw [dif_pos ⟨hxy, hne⟩]

/-- The miss branch of handleCanvasClick: no corner pop and no hit. -/
theorem handleCanvasClick_miss (x y W H : ℚ) (st : CState)
    (hcond : ¬ ((x < 20 ∧ y < 20) ∧ st.treeStack.length ≠ 0))
    (hmiss : searchForNodeWithXY st.cellHeight st.currentTree.root x y = none) :
    handleCanvasClick x y W H st = (st, false) := by
  unfold handleCanvasClick
  rw [dif_neg hcond, hmiss]

/-- Claim C1: in every snapshot built by createDOMLikeObject (equivalently by
traverseDomNodes) over an interval with end at least start, the children of
any node with at least one child receive equal-width, contiguous,
order-respecting, non-overlapping intervals whose union is exactly the
parent interval; a single child inherits the whole parent interval.  Over
the rational model the partition is exact, which implies the claim stated up
to floating-point tolerance. -/
theorem claim_C1_partition (src : DNode) (s e : ℚ) (ctr : Nat) (hse : s ≤ e)
    (p : List Nat) (m : DNode)
    (hm : nodeAtPath (createDOMLikeObject src s e ctr).1.root p = some m)
    (hne : m.children ≠ []) :
    0 ≤ childWidth m ∧
    (∀ j (hj : j < m.children.length),
      (m.children.get ⟨j, hj⟩).stop - (m.children.get ⟨j, hj⟩).start = childWidth m) ∧
    (∀ j (hj : j + 1 < m.children.length),
      (m.children.get ⟨j + 1, hj⟩).start =
        (m.children.get ⟨j, Nat.lt_of_succ_lt hj⟩).stop) ∧
    (∀ j (hj : j < m.children.length),
      (m.children.get ⟨j, hj⟩).start = m.start + (j : ℚ) * childWidth m) ∧
    (m.children.get ⟨0, List.length_pos.mpr hne⟩).start = m.start ∧
    (m.children.getLast hne).stop = m.stop ∧
    (∀ j k (hj : j < m.children.length) (hk : k < m.children.length), j < k →
      ∀ x : ℚ, ¬ ((m.children.get ⟨j, hj⟩).start ≤ x ∧ x < (m.children.get ⟨j, hj⟩).stop ∧
        (m.children.get ⟨k, hk⟩).start ≤ x ∧ x < (m.children.get ⟨k, hk⟩).stop)) ∧
    (m.children.length = 1 →
      (m.children.get ⟨0, List.length_pos.mpr hne⟩).start = m.start ∧
      (m.children.get ⟨0, List.length_pos.mpr hne⟩).stop = m.stop) := by
  have hpart : partitionedAt m :=
    createDOM_partitioned src s e ctr m (nodeAtPath_mem_preorder p _ m hm)
  have hroot : (createDOMLikeObject src s e ctr).1.root.start ≤
      (createDOMLikeObject src s e ctr).1.root.stop := by
    rw [createDOM_root_start, createDOM_root_stop]; exact hse
  have hnn : m.start ≤ m.stop :=
    nodeAtPath_width_nonneg p _ (createDOM_partitioned src s e ctr) hroot m hm
  have hlen0 : 0 < m.children.length := List.length_pos.mpr hne
  have hlenq : ((m.children.length : ℚ)) ≠ 0 := by
    exact_mod_cast Nat.pos_iff_ne_zero.mp hlen0
  have hw0 : 0 ≤ childWidth m :=
    div_nonneg (by linarith) (Nat.cast_nonneg _)
  have hspan : (m.children.length : ℚ) * childWidth m = m.stop - m.start := by
    unfold childWidth; field_simp
  refine ⟨hw0, ?_, ?_, ?_, ?_, ?_, ?_, ?_⟩
  · intro j hj
    rw [(hpart j hj).1, (hpart j hj).2.1]; ring
  · intro j hj
    rw [(hpart (j + 1) hj).1, (hpart j (Nat.lt_of_succ_lt hj)).2.1]
    push_cast; ring
  · intro j hj
    exact (hpart j hj).1
  · simpa using (hpart 0 hlen0).1
  · rw [List.getLast_eq_get, (hpart (m.children.length - 1)
      (by omega)).2.1]
    have hcast : ((m.children.length - 1 : Nat) : ℚ) = (m.children.length : ℚ) - 1 := by
      have : 1 ≤ m.children.length := hlen0
      push_cast [this]; ring
    rw [hcast]
    have : ((m.children.length : ℚ) - 1) * childWidth m + childWidth m =
        (m.children.length : ℚ) * childWidth m := by ring
    linarith [hspan]
  · intro j k hj hk hjk x ⟨h1, h2, h3, h4⟩
    rw [(hpart j hj).2.1] at h2
    rw [(hpart k hk).1] at h3
    have hjk1 : ((j : ℚ) + 1) ≤ (k : ℚ) := by exact_mod_cast hjk
    nlinarith
  · intro h1
    have hw : childWidth m = m.stop - m.start := by
      unfold childWidth; rw [h1]; norm_num
    constructor
    · simpa using (hpart 0 hlen0).1
    · have := (hpart 0 hlen0).2.1
      rw [this, hw]; push_cast; ring

/-- Claim C1 witness at a concrete build: end at least start, the root has
children, and its child intervals carry the non-negative common width. -/
theorem claim_C1_witness :
    (0 : ℚ) ≤ 400 ∧
    (createDOMLikeObject exRootAB 0 400 0).1.root.children ≠ [] ∧
    0 ≤ childWidth (createDOMLikeObject exRootAB 0 400 0).1.root := by
  have hval : (createDOMLikeObject exRootAB 0 400 0).1.root.children =
      [DNode.mk 1 "DIV" "" [] 1 0 200 (some 0) none none [],
       DNode.mk 2 "SPAN" "" [] 1 200 400 (some 0) none none []] := by
    norm_num [createDOMLikeObject, traverseDomNodes, traverseSiblings, initialDocParams,
      docRefTagsMap_apply_HTML, docRefTagsMap_apply_DIV, docRefTagsMap_apply_SPAN,
      idsInsert, exRootAB, exA, exB, DNode.setOid]
  have hne : (createDOMLikeObject exRootAB 0 400 0).1.root.children ≠ [] := by
    rw [hval]; exact List.cons_ne_nil _ _
  exact ⟨by norm_num, hne,
    (claim_C1_partition exRootAB 0 400 0 (by norm_num) []
      ((createDOMLikeObject exRootAB 0 400 0).1.root) (nodeAtPath_nil _) hne).1⟩

/-- Claim C2 (amended): visiting a source node with zero children, the
builder does evaluate the line-199 expression (end - start) / childCount,
a division by zero (harmless: in JavaScript it yields a non-finite number
that is never used, since the child loop body does not run), and the
resulting node has an empty children sequence with firstElementChild and
lastElementChild both null. -/
theorem claim_C2_leaf (node : DNode) (po : Option Nat) (d : Nat) (s e : ℚ) (st : BuildSt)
    (h : node.children = []) :
    (traverseDomNodes node po d s e st).1.children = [] ∧
    (traverseDomNodes node po d s e st).1.firstElementChild = none ∧
    (traverseDomNodes node po d s e st).1.lastElementChild = none ∧
    (traverseDomNodes node po d s e st).2.zeroDivCount = st.zeroDivCount + 1 := by
  cases node with
  | mk o tg i a d0 s0 e0 p f l c =>
    simp only [DNode.children_mk] at h
    subst h
    simp [traverseDomNodes, traverseSiblings]

/-- Claim C2 counterexample: the claim asserts the builder performs no
division by the child count on a zero-child node, but line 199 evaluates
(end - start) / childCount unconditionally; on a childless source the
instrumented count of zero-divisor evaluations is not zero. -/
theorem claim_C2_counterexample :
    ¬ ((createDOMLikeObject exLeaf 0 4 0).2.zeroDivCount = 0) := by
  norm_num [createDOMLikeObject, traverseDomNodes, traverseSiblings, initialDocParams,
    docRefTagsMap_apply_P, idsInsert, exLeaf]

/-- Claim C2 witness: a concrete childless source, its empty result children
and null child references, and the one recorded zero division. -/
theorem claim_C2_witness :
    exLeaf.children = [] ∧
    (traverseDomNodes exLeaf none 0 0 4
      { ctr := 0, dp := initialDocParams, zeroDivCount := 0 }).1.firstElementChild = none ∧
    (traverseDomNodes exLeaf none 0 0 4
      { ctr := 0, dp := initialDocParams, zeroDivCount := 0 }).1.lastElementChild = none ∧
    (traverseDomNodes exLeaf none 0 0 4
      { ctr := 0, dp := initialDocParams, zeroDivCount := 0 }).2.zeroDivCount = 0 + 1 := by
  have h := claim_C2_leaf exLeaf none 0 0 4
    { ctr := 0, dp := initialDocParams, zeroDivCount := 0 } rfl
  exact ⟨rfl, h.2.1, h.2.2.1, h.2.2.2⟩

/-- Claim C5: the claim says drawDOM is a silent no-op on a root that is not
a recognized document-like structure; in the code the guard on line 488 is
the mis-parenthesized (!myDocument) instanceof HTMLDocument, which is false
for every input, so drawDOM never short-circuits: for every root, document
or not, it builds a snapshot, overwrites currentTree and issues
drawing-surface calls.  This theorem evaluates the code on arbitrary input,
including the failing inputs with rootIsHTMLDocument false. -/
theorem claim_C5_drawDOM_never_noop (W H : ℚ) (root : DNode)
    (rootTruthy rootIsHTMLDocument : Bool) (st : CState) :
    drawDOMGuard rootTruthy = false ∧
    (drawDOM W H root rootTruthy rootIsHTMLDocument st).2 = true ∧
    (drawDOM W H root rootTruthy rootIsHTMLDocument st).1.currentTree =
      (createDOMLikeObject root 0 W st.ctr).1 := by
  unfold drawDOM drawDOMGuard boolInstanceOfHTMLDocument
  simp

/-- The snapshot node the builder produces for the first child of exRootAB. -/
def exTargetA : DNode := DNode.mk 1 "DIV" "" [] 1 0 200 (some 0) none none []

/-- Claim C3: for any node of a built snapshot with positive interval width,
querying the hit-tester at the node's own computed center
x = start + (end - start) / 2, y = depth * cellHeight + 20 returns that
node, provided no ancestor on the descent path has a marker box containing
the point. -/
theorem claim_C3_center (src : DNode) (s e : ℚ) (ctr : Nat) (cellHeight : ℚ)
    (p : List Nat) (m : DNode)
    (hm : nodeAtPath (createDOMLikeObject src s e ctr).1.root p = some m)
    (hpos : m.start < m.stop)
    (hanc : ∀ k, k < p.length → ∀ a,
      nodeAtPath (createDOMLikeObject src s e ctr).1.root (p.take k) = some a →
      ¬ inMarkerBox cellHeight a (vCenter m) (hCenter cellHeight m)) :
    searchForNodeWithXY cellHeight (createDOMLikeObject src s e ctr).1.root
      (vCenter m) (hCenter cellHeight m) = some m :=
  search_center_generic cellHeight p _ (createDOM_partitioned src s e ctr) m hm hpos hanc

/-- Claim C3 witness: in the concrete two-child build, the first child has
positive width, sits at path 0, and the hit-test at its center returns it. -/
theorem claim_C3_witness :
    exTargetA.start < exTargetA.stop ∧
    nodeAtPath (createDOMLikeObject exRootAB 0 400 0).1.root [0] = some exTargetA ∧
    searchForNodeWithXY 100 (createDOMLikeObject exRootAB 0 400 0).1.root
      (vCenter exTargetA) (hCenter 100 exTargetA) = some exTargetA := by
  have hm : nodeAtPath (createDOMLikeObject exRootAB 0 400 0).1.root [0] = some exTargetA := by
    norm_num [nodeAtPath, createDOMLikeObject, traverseDomNodes, traverseSiblings,
      initialDocParams, docRefTagsMap_apply_HTML, docRefTagsMap_apply_DIV,
      docRefTagsMap_apply_SPAN, idsInsert, exRootAB, exA, exB, DNode.setOid, exTargetA]
  have hanc : ∀ k, k < ([0] : List Nat).length → ∀ a,
      nodeAtPath (createDOMLikeObject exRootAB 0 400 0).1.root (([0] : List Nat).take k) =
        some a →
      ¬ inMarkerBox 100 a (vCenter exTargetA) (hCenter 100 exTargetA) := by
    intro k hk a ha
    have hk0 : k = 0 := by
      simp only [List.length_cons, List.length_nil] at hk
      omega
    subst hk0
    rw [List.take_zero, nodeAtPath_nil, Option.some_inj] at ha
    subst ha
    norm_num [inMarkerBox, vCenter, hCenter, radius, exTargetA,
      createDOMLikeObject, traverseDomNodes, traverseSiblings, initialDocParams,
      docRefTagsMap_apply_HTML, docRefTagsMap_apply_DIV, docRefTagsMap_apply_SPAN,
      idsInsert, exRootAB, exA, exB, DNode.setOid]
  exact ⟨by norm_num [exTargetA], hm,
    claim_C3_center exRootAB 0 400 0 100 [0] exTargetA hm (by norm_num [exTargetA]) hanc⟩

/-- Claim C4: for any node of a built snapshot, a query whose x coordinate
is exactly the shared boundary between two adjacent child sub-intervals
satisfies neither child's strictly exclusive interval test, so when the
query reaches that node without having satisfied its marker-box test the
hit-test returns null rather than either neighbor. -/
theorem claim_C4_boundary (src : DNode) (s e : ℚ) (ctr : Nat) (cellHeight : ℚ)
    (p : List Nat) (a : DNode) (i : Nat) (x y : ℚ)
    (ha : nodeAtPath (createDOMLikeObject src s e ctr).1.root p = some a)
    (hi : i + 1 < a.children.length)
    (hx : x = a.start + ((i : ℚ) + 1) * childWidth a)
    (hbox : ¬ inMarkerBox cellHeight a x y) :
    (∀ c ∈ a.children, ¬ (x > c.start ∧ x < c.stop)) ∧
    searchForNodeWithXY cellHeight a x y = none := by
  have hpart : partitionedAt a :=
    createDOM_partitioned src s e ctr a (nodeAtPath_mem_preorder p _ a ha)
  have hfail : ∀ c ∈ a.children, ¬ (x > c.start ∧ x < c.stop) := by
    intro c hc
    obtain ⟨⟨j, hj⟩, rfl⟩ := List.mem_iff_get.mp hc
    rintro ⟨h1, h2⟩
    rw [(hpart j hj).1] at h1
    rw [(hpart j hj).2.1] at h2
    have hwpos : 0 < childWidth a := by linarith
    rcases le_or_lt j i with hji | hij
    · have hc1 : ((j : ℚ) + 1) ≤ (i : ℚ) + 1 := by exact_mod_cast Nat.succ_le_succ hji
      nlinarith
    · have hc2 : ((i : ℚ) + 1) ≤ (j : ℚ) := by exact_mod_cast hij
      nlinarith
  refine ⟨hfail, ?_⟩
  rw [searchForNodeWithXY_eq, if_neg hbox]
  exact searchChildren_none cellHeight x y a.children hfail

/-- Claim C4 witness: in the concrete two-child build, the shared boundary
x = 200 between the two children, queried at a y far from the root marker,
matches neither child and the hit-test returns null. -/
theorem claim_C4_witness :
    (0 : Nat) + 1 < (createDOMLikeObject exRootAB 0 400 0).1.root.children.length ∧
    searchForNodeWithXY 100 (createDOMLikeObject exRootAB 0 400 0).1.root 200 500 = none := by
  have hi : (0 : Nat) + 1 < (createDOMLikeObject exRootAB 0 400 0).1.root.children.length := by
    norm_num [createDOMLikeObject, traverseDomNodes, traverseSiblings, initialDocParams,
      docRefTagsMap_apply_HTML, docRefTagsMap_apply_DIV, docRefTagsMap_apply_SPAN,
      idsInsert, exRootAB, exA, exB, DNode.setOid]
  have hx : (200 : ℚ) = (createDOMLikeObject exRootAB 0 400 0).1.root.start +
      (((0 : Nat) : ℚ) + 1) * childWidth (createDOMLikeObject exRootAB 0 400 0).1.root := by
    norm_num [childWidth, createDOMLikeObject, traverseDomNodes, traverseSiblings,
      initialDocParams, docRefTagsMap_apply_HTML, docRefTagsMap_apply_DIV,
      docRefTagsMap_apply_SPAN, idsInsert, exRootAB, exA, exB, DNode.setOid]
  have hbox : ¬ inMarkerBox 100 (createDOMLikeObject exRootAB 0 400 0).1.root 200 500 := by
    norm_num [inMarkerBox, vCenter, hCenter, radius, createDOMLikeObject, traverseDomNodes,
      traverseSiblings, initialDocParams, docRefTagsMap_apply_HTML, docRefTagsMap_apply_DIV,
      docRefTagsMap_apply_SPAN, idsInsert, exRootAB, exA, exB, DNode.setOid]
  exact ⟨hi, (claim_C4_boundary exRootAB 0 400 0 100 []
    ((createDOMLikeObject exRootAB 0 400 0).1.root) 0 200 500
    (nodeAtPath_nil _) hi hx hbox).2⟩

/-- Claim C10: whenever the hit-test returns a node, the query point lies
within the axis-aligned box of half-width radius (5) centered on that
node's computed marker center; the result is null in every other case. -/
theorem claim_C10_sound (cellHeight x y : ℚ) (node m : DNode)
    (h : searchForNodeWithXY cellHeight node x y = some m) :
    |x - vCenter m| ≤ radius ∧ |y - hCenter cellHeight m| ≤ radius :=
  search_sound cellHeight node x y m h

/-- Claim C10 witness: a concrete query that returns a node, and the box
containment it implies. -/
theorem claim_C10_witness :
    searchForNodeWithXY 100 (createDOMLikeObject exRootAB 0 400 0).1.root 100 120 =
      some exTargetA ∧
    |(100 : ℚ) - vCenter exTargetA| ≤ radius ∧
    |(120 : ℚ) - hCenter 100 exTargetA| ≤ radius := by
  have hs : searchForNodeWithXY 100 (createDOMLikeObject exRootAB 0 400 0).1.root 100 120 =
      some exTargetA := by
    norm_num [searchForNodeWithXY, searchChildren, inMarkerBox, vCenter, hCenter, radius,
      createDOMLikeObject, traverseDomNodes, traverseSiblings, initialDocParams,
      docRefTagsMap_apply_HTML, docRefTagsMap_apply_DIV, docRefTagsMap_apply_SPAN,
      idsInsert, exRootAB, exA, exB, DNode.setOid, exTargetA]
  exact ⟨hs, claim_C10_sound 100 100 120 _ exTargetA hs⟩

/-- Claim C6 counterexample: in the one-child build, the direct child's
parentNode reference is the pre-merge internal root object (oid 0), not the
returned root, which is the fresh object allocated by Object.assign
(oid 2); so it is false that every direct child's parentNode is the
returned root object itself. -/
theorem claim_C6_counterexample :
    ¬ (∀ c ∈ (createDOMLikeObject exRoot1 0 4 0).1.root.children,
        c.parentOid = some (createDOMLikeObject exRoot1 0 4 0).1.root.oid) := by
  intro hall
  have hchild : (createDOMLikeObject exRoot1 0 4 0).1.root.children =
      [DNode.mk 1 "DIV" "" [] 1 0 4 (some 0) none none []] := by
    norm_num [createDOMLikeObject, traverseDomNodes, traverseSiblings, initialDocParams,
      docRefTagsMap_apply_HTML, docRefTagsMap_apply_DIV, idsInsert, exRoot1, exA,
      DNode.setOid]
  have hoid : (createDOMLikeObject exRoot1 0 4 0).1.root.oid = 2 := by
    norm_num [createDOMLikeObject, traverseDomNodes, traverseSiblings, initialDocParams,
      docRefTagsMap_apply_HTML, docRefTagsMap_apply_DIV, idsInsert, exRoot1, exA,
      DNode.setOid]
  have hc := hall (DNode.mk 1 "DIV" "" [] 1 0 4 (some 0) none none [])
    (by rw [hchild]; exact List.mem_singleton_self _)
  rw [hoid] at hc
  norm_num at hc

/-- Claim C6 (amended): the returned root's parentNode is null, and every
child node in the tree holds a back-reference to its containing node; but
because Object.assign allocates a fresh root object, the containing object
referenced by the direct children of the returned root is the pre-merge
internal root (identical to the returned root in every field except its
object identity and the merged index fields), not the returned root object
itself. -/
theorem claim_C6_parent_refs (src : DNode) (s e : ℚ) (ctr : Nat) :
    (createDOMLikeObject src s e ctr).1.root.parentOid = none ∧
    (createDOMLikeObject src s e ctr).1.root.oid ≠
      (traverseDomNodes src none 0 s e
        { ctr := ctr, dp := initialDocParams, zeroDivCount := 0 }).1.oid ∧
    (createDOMLikeObject src s e ctr).1.root =
      ((traverseDomNodes src none 0 s e
        { ctr := ctr, dp := initialDocParams, zeroDivCount := 0 }).1.setOid
          (createDOMLikeObject src s e ctr).1.root.oid) ∧
    (∀ c ∈ (createDOMLikeObject src s e ctr).1.root.children,
      c.parentOid = some (traverseDomNodes src none 0 s e
        { ctr := ctr, dp := initialDocParams, zeroDivCount := 0 }).1.oid) ∧
    (∀ (p : List Nat) (m : DNode), p ≠ [] →
      nodeAtPath (createDOMLikeObject src s e ctr).1.root p = some m →
      ∀ c ∈ m.children, c.parentOid = some m.oid) := by
  refine ⟨?_, ?_, ?_, ?_, ?_⟩
  · simp only [createDOMLikeObject]
    rw [DNode.parentOid_setOid, traverse_fst_parentOid]
  · simp only [createDOMLikeObject]
    rw [DNode.oid_setOid, traverse_fst_oid]
    have := traverse_ctr src none 0 s e
      { ctr := ctr, dp := initialDocParams, zeroDivCount := 0 }
    omega
  · simp only [createDOMLikeObject]
    rw [DNode.oid_setOid]
  · intro c hc
    simp only [createDOMLikeObject, DNode.children_setOid] at hc
    exact built_parents src none 0 s e _ _
      (self_mem_preorder (traverseDomNodes src none 0 s e
        { ctr := ctr, dp := initialDocParams, zeroDivCount := 0 }).1) c hc
  · intro p m hp hm c hc
    match p with
    | [] => exact absurd rfl hp
    | i :: p2 =>
      obtain ⟨c0, hget, hrest⟩ := (nodeAtPath_cons _ i p2 m).mp hm
      simp only [createDOMLikeObject, DNode.children_setOid] at hget
      have hc0 : c0 ∈ (traverseDomNodes src none 0 s e
          { ctr := ctr, dp := initialDocParams, zeroDivCount := 0 }).1.children :=
        List.get?_mem hget
      have hmem : m ∈ preorder (traverseDomNodes src none 0 s e
          { ctr := ctr, dp := initialDocParams, zeroDivCount := 0 }).1 :=
        mem_preorder_of_child hc0 (nodeAtPath_mem_preorder p2 c0 m hrest)
      exact built_parents src none 0 s e _ m hmem c hc

/-- Claim C6 witness: concrete parent references in the one-child build: the
returned root has no parent, and the direct child points at the internal
pre-merge root object. -/
theorem claim_C6_witness :
    (createDOMLikeObject exRoot1 0 4 0).1.root.parentOid = none ∧
    (DNode.mk 1 "DIV" "" [] 1 0 4 (some 0) none none []).parentOid =
      some (traverseDomNodes exRoot1 none 0 0 4
        { ctr := 0, dp := initialDocParams, zeroDivCount := 0 }).1.oid := by
  have h := claim_C6_parent_refs exRoot1 0 4 0
  refine ⟨h.1, ?_⟩
  refine h.2.2.2.1 (DNode.mk 1 "DIV" "" [] 1 0 4 (some 0) none none []) ?_
  have hchild : (createDOMLikeObject exRoot1 0 4 0).1.root.children =
      [DNode.mk 1 "DIV" "" [] 1 0 4 (some 0) none none []] := by
    norm_num [createDOMLikeObject, traverseDomNodes, traverseSiblings, initialDocParams,
      docRefTagsMap_apply_HTML, docRefTagsMap_apply_DIV, idsInsert, exRoot1, exA,
      DNode.setOid]
  rw [hchild]
  exact List.mem_singleton_self _

/-- Claim C7: the interaction state machine of handleCanvasClick: from an
empty stack, a drill-down into a hit node A pushes the current tree (stack
becomes the singleton of the old root view) and makes the fresh snapshot
built from A current; a second drill-down pushes the A-snapshot; a corner
back-click pops it back to current; a second corner back-click restores the
original tree with an empty stack. -/
theorem claim_C7_stack (W H x1 y1 x2 y2 xb yb xb2 yb2 : ℚ)
    (st0 st1 st2 st3 st4 : CState) (A C : DNode)
    (h0 : st0.treeStack = [])
    (hA : searchForNodeWithXY st0.cellHeight st0.currentTree.root x1 y1 = some A)
    (hst1 : st1 = (handleCanvasClick x1 y1 W H st0).1)
    (hx2 : ¬ (x2 < 20 ∧ y2 < 20))
    (hC : searchForNodeWithXY st1.cellHeight st1.currentTree.root x2 y2 = some C)
    (hst2 : st2 = (handleCanvasClick x2 y2 W H st1).1)
    (hb : xb < 20 ∧ yb < 20)
    (hst3 : st3 = (handleCanvasClick xb yb W H st2).1)
    (hb2 : xb2 < 20 ∧ yb2 < 20)
    (hst4 : st4 = (handleCanvasClick xb2 yb2 W H st3).1) :
    st1.currentTree = (createDOMLikeObject A 0 W st0.ctr).1 ∧
    st1.treeStack = [st0.currentTree] ∧
    st2.currentTree = (createDOMLikeObject C 0 W st1.ctr).1 ∧
    st2.treeStack = [st0.currentTree, st1.currentTree] ∧
    st3.currentTree = st1.currentTree ∧
    st3.treeStack = [st0.currentTree] ∧
    st4.currentTree = st0.currentTree ∧
    st4.treeStack = [] := by
  have hcond1 : ¬ ((x1 < 20 ∧ y1 < 20) ∧ st0.treeStack.length ≠ 0) := by
    rw [h0]; simp
  have e1 := handleCanvasClick_drill x1 y1 W H st0 A hcond1 hA
  have hS1 : st1 =
      { currentTree := (createDOMLikeObject A 0 W st0.ctr).1,
        treeStack := st0.treeStack ++ [st0.currentTree],
        cellHeight := H / (((createDOMLikeObject A 0 W st0.ctr).1.largestDepth : ℚ) + 1),
        ctr := (createDOMLikeObject A 0 W st0.ctr).2.ctr } := by
    rw [hst1, e1]
  have c1 : st1.currentTree = (createDOMLikeObject A 0 W st0.ctr).1 := by rw [hS1]
  have c2 : st1.treeStack = [st0.currentTree] := by rw [hS1]; simp [h0]
  have hcond2 : ¬ ((x2 < 20 ∧ y2 < 20) ∧ st1.treeStack.length ≠ 0) :=
    fun hco => hx2 hco.1
  have e2 := handleCanvasClick_drill x2 y2 W H st1 C hcond2 hC
  have hS2 : st2 =
      { currentTree := (createDOMLikeObject C 0 W st1.ctr).1,
        treeStack := st1.treeStack ++ [st1.currentTree],
        cellHeight := H / (((createDOMLikeObject C 0 W st1.ctr).1.largestDepth : ℚ) + 1),
        ctr := (createDOMLikeObject C 0 W st1.ctr).2.ctr } := by
    rw [hst2, e2]
  have c3 : st2.currentTree = (createDOMLikeObject C 0 W st1.ctr).1 := by rw [hS2]
  have c4 : st2.treeStack = [st0.currentTree, st1.currentTree] := by
    rw [hS2]; simp [c2]
  have hlen2 : st2.treeStack.length ≠ 0 := by rw [c4]; simp
  have e3 := handleCanvasClick_pop xb yb W H st2 hb hlen2
  have hS3 : st3 =
      { currentTree := st2.treeStack.getLast (List.length_pos.mp (Nat.pos_of_ne_zero hlen2)),
        treeStack := st2.treeStack.dropLast,
        cellHeight := H / (((st2.treeStack.getLast
          (List.length_pos.mp (Nat.pos_of_ne_zero hlen2))).largestDepth : ℚ) + 1),
        ctr := st2.ctr } := by
    rw [hst3, e3]
  have hlast2 : st2.treeStack.getLast (List.length_pos.mp (Nat.pos_of_ne_zero hlen2)) =
      st1.currentTree :=
    (List.getLast_congr _ (List.cons_ne_nil _ _) c4).trans rfl
  have c5 : st3.currentTree = st1.currentTree := by rw [hS3]; exact hlast2
  have c6 : st3.treeStack = [st0.currentTree] := by
    rw [hS3]
    show st2.treeStack.dropLast = [st0.currentTree]
    rw [c4]
    rfl
  have hlen3 : st3.treeStack.length ≠ 0 := by rw [c6]; simp
  have e4 := handleCanvasClick_pop xb2 yb2 W H st3 hb2 hlen3
  have hS4 : st4 =
      { currentTree := st3.treeStack.getLast (List.length_pos.mp (Nat.pos_of_ne_zero hlen3)),
        treeStack := st3.treeStack.dropLast,
        cellHeight := H / (((st3.treeStack.getLast
          (List.length_pos.mp (Nat.pos_of_ne_zero hlen3))).largestDepth : ℚ) + 1),
        ctr := st3.ctr } := by
    rw [hst4, e4]
  have hlast3 : st3.treeStack.getLast (List.length_pos.mp (Nat.pos_of_ne_zero hlen3)) =
      st0.currentTree :=
    (List.getLast_congr _ (List.cons_ne_nil _ _) c6).trans rfl
  have c7 : st4.currentTree = st0.currentTree := by rw [hS4]; exact hlast3
  have c8 : st4.treeStack = [] := by
    rw [hS4]
    show st3.treeStack.dropLast = []
    rw [c6]
    rfl
  exact ⟨c1, c2, c3, c4, c5, c6, c7, c8⟩

/-- The initial interaction state for the drill-down scenario: the built
snapshot of exRootABP current, empty stack, cellHeight 100 as set by a
300-high canvas over the depth-2 tree. -/
def exSt0 : CState :=
  { currentTree := (createDOMLikeObject exRootABP 0 400 0).1, treeStack := [],
    cellHeight := 100, ctr := (createDOMLikeObject exRootABP 0 400 0).2.ctr }

/-- The snapshot node built for the DIV child of exRootABP. -/
def exBuiltP : DNode := DNode.mk 2 "P" "" [] 2 0 200 (some 1) none none []

def exBuiltA : DNode :=
  DNode.mk 1 "DIV" "" [] 1 0 200 (some 0) (some exBuiltP) (some exBuiltP) [exBuiltP]

/-- The snapshot node found by the second drill-down click (the single child
of the rebuilt DIV view). -/
def exBuiltP2 : DNode := DNode.mk 6 "P" "" [] 1 0 400 (some 5) none none []

/-- Claim C7 witness: the concrete four-click scenario on the exRootABP
snapshot: drill into the DIV, drill into its P child, then two corner
back-clicks restore the intermediate view and then the original view. -/
theorem claim_C7_witness :
    (handleCanvasClick 100 120 400 300 exSt0).1.treeStack = [exSt0.currentTree] ∧
    (handleCanvasClick 10 10 400 300
      (handleCanvasClick 200 170 400 300
        (handleCanvasClick 100 120 400 300 exSt0).1).1).1.currentTree =
      (handleCanvasClick 100 120 400 300 exSt0).1.currentTree ∧
    (handleCanvasClick 10 10 400 300
      (handleCanvasClick 200 170 400 300
        (handleCanvasClick 100 120 400 300 exSt0).1).1).1.treeStack =
      [exSt0.currentTree] ∧
    (handleCanvasClick 10 10 400 300
      (handleCanvasClick 10 10 400 300
        (handleCanvasClick 200 170 400 300
          (handleCanvasClick 100 120 400 300 exSt0).1).1).1).1.currentTree =
      exSt0.currentTree ∧
    (handleCanvasClick 10 10 400 300
      (handleCanvasClick 10 10 400 300
        (handleCanvasClick 200 170 400 300
          (handleCanvasClick 100 120 400 300 exSt0).1).1).1).1.treeStack = [] := by
  have hA : searchForNodeWithXY exSt0.cellHeight exSt0.currentTree.root 100 120 =
      some exBuiltA := by
    norm_num [exSt0, searchForNodeWithXY, searchChildren, inMarkerBox, vCenter, hCenter,
      radius, createDOMLikeObject, traverseDomNodes, traverseSiblings, initialDocParams,
      docRefTagsMap_apply_HTML, docRefTagsMap_apply_DIV, docRefTagsMap_apply_SPAN,
      docRefTagsMap_apply_P, idsInsert, exRootABP, exA1, exLeaf, exB, DNode.setOid,
      exBuiltA, exBuiltP]
  have hC : searchForNodeWithXY (handleCanvasClick 100 120 400 300 exSt0).1.cellHeight
      (handleCanvasClick 100 120 400 300 exSt0).1.currentTree.root 200 170 =
      some exBuiltP2 := by
    norm_num [exSt0, handleCanvasClick, searchForNodeWithXY, searchChildren, inMarkerBox,
      vCenter, hCenter, radius, createDOMLikeObject, traverseDomNodes, traverseSiblings,
      initialDocParams, docRefTagsMap_apply_HTML, docRefTagsMap_apply_DIV,
      docRefTagsMap_apply_SPAN, docRefTagsMap_apply_P, idsInsert, exRootABP, exA1, exLeaf,
      exB, DNode.setOid, exBuiltA, exBuiltP, exBuiltP2]
  have h := claim_C7_stack 400 300 100 120 200 170 10 10 10 10 exSt0
    ((handleCanvasClick 100 120 400 300 exSt0).1)
    ((handleCanvasClick 200 170 400 300 (handleCanvasClick 100 120 400 300 exSt0).1).1)
    ((handleCanvasClick 10 10 400 300
      (handleCanvasClick 200 170 400 300
        (handleCanvasClick 100 120 400 300 exSt0).1).1).1)
    ((handleCanvasClick 10 10 400 300
      (handleCanvasClick 10 10 400 300
        (handleCanvasClick 200 170 400 300
          (handleCanvasClick 100 120 400 300 exSt0).1).1).1).1)
    exBuiltA exBuiltP2 rfl hA rfl (by norm_num) hC rfl (by norm_num) rfl (by norm_num) rfl
  exact ⟨h.2.1, h.2.2.2.2.1, h.2.2.2.2.2.1, h.2.2.2.2.2.2.1, h.2.2.2.2.2.2.2⟩

/-- Claim C8: a click that is neither a corner back-click with a non-empty
stack nor lands on any node changes no state: the whole state, the current
tree and the navigation stack included, is unchanged and no drawing-surface
call is issued. -/
theorem claim_C8_no_change (x y W H : ℚ) (st : CState)
    (hcorner : ¬ ((x < 20 ∧ y < 20) ∧ st.treeStack.length ≠ 0))
    (hmiss : searchForNodeWithXY st.cellHeight st.currentTree.root x y = none) :
    handleCanvasClick x y W H st = (st, false) :=
  handleCanvasClick_miss x y W H st hcorner hmiss

/-- Claim C8 witness: a concrete far-away click on the scenario state misses
everything, leaves the state untouched and draws nothing. -/
theorem claim_C8_witness :
    ¬ (((1000 : ℚ) < 20 ∧ (1000 : ℚ) < 20) ∧ exSt0.treeStack.length ≠ 0) ∧
    handleCanvasClick 1000 1000 400 300 exSt0 = (exSt0, false) := by
  have hcorner : ¬ (((1000 : ℚ) < 20 ∧ (1000 : ℚ) < 20) ∧ exSt0.treeStack.length ≠ 0) := by
    norm_num
  have hmiss : searchForNodeWithXY exSt0.cellHeight exSt0.currentTree.root 1000 1000 =
      none := by
    norm_num [exSt0, searchForNodeWithXY, searchChildren, inMarkerBox, vCenter, hCenter,
      radius, createDOMLikeObject, traverseDomNodes, traverseSiblings, initialDocParams,
      docRefTagsMap_apply_HTML, docRefTagsMap_apply_DIV, docRefTagsMap_apply_SPAN,
      docRefTagsMap_apply_P, idsInsert, exRootABP, exA1, exLeaf, exB, DNode.setOid]
  exact ⟨hcorner, claim_C8_no_change 1000 1000 400 300 exSt0 hcorner hmiss⟩

/-- Claim C9: for a build whose source contains exactly one image node and
two hyperlink nodes of which exactly one carries an href attribute, the
DocumentIndex has an images bucket of length 1 and a links bucket of
length 1, and every entry of the links bucket is the oid of a visited
hyperlink node whose href attribute is present — hyperlinks without an href
are never registered. -/
theorem claim_C9_index (src : DNode) (s e : ℚ) (ctr : Nat)
    (himg : ((preorder src).filter (fun k => imageKeyP k.tagName)).length = 1)
    (hlink2 : ((preorder src).filter
      (fun k => k.tagName == "A" || k.tagName == "AREA")).length = 2)
    (hlinkhref : ((preorder src).filter
      (fun k => linkKeyP k.tagName k.attributes)).length = 1) :
    (createDOMLikeObject src s e ctr).1.images.length = 1 ∧
    (createDOMLikeObject src s e ctr).1.links.length = 1 ∧
    (∀ o ∈ (createDOMLikeObject src s e ctr).1.links,
      ∃ n ∈ preorder (traverseDomNodes src none 0 s e
        { ctr := ctr, dp := initialDocParams, zeroDivCount := 0 }).1,
        n.oid = o ∧ (n.tagName = "A" ∨ n.tagName = "AREA") ∧
        (n.attributes.lookup "href").isSome) := by
  have hkeys := build_preserves_keys src none 0 s e
    { ctr := ctr, dp := initialDocParams, zeroDivCount := 0 }
  have hlinksval : (createDOMLikeObject src s e ctr).1.links =
      ((preorder (traverseDomNodes src none 0 s e
        { ctr := ctr, dp := initialDocParams, zeroDivCount := 0 }).1).filter
        (fun k => linkKeyP k.tagName k.attributes)).map DNode.oid := by
    simp only [createDOMLikeObject]
    rw [build_links src none 0 s e]
    simp [initialDocParams]
  have himagesval : (createDOMLikeObject src s e ctr).1.images =
      ((preorder (traverseDomNodes src none 0 s e
        { ctr := ctr, dp := initialDocParams, zeroDivCount := 0 }).1).filter
        (fun k => imageKeyP k.tagName)).map DNode.oid := by
    simp only [createDOMLikeObject]
    rw [build_images src none 0 s e]
    simp [initialDocParams]
  refine ⟨?_, ?_, ?_⟩
  · rw [himagesval, List.length_map]
    have := filter_length_key (fun k => (k.tagName, k.attributes))
      (fun q => imageKeyP q.1) _ _ hkeys
    simpa using this.trans (by simpa using himg)
  · rw [hlinksval, List.length_map]
    have := filter_length_key (fun k => (k.tagName, k.attributes))
      (fun q => linkKeyP q.1 q.2) _ _ hkeys
    simpa using this.trans (by simpa using hlinkhref)
  · intro o ho
    rw [hlinksval] at ho
    obtain ⟨n, hn, rfl⟩ := List.mem_map.mp ho
    obtain ⟨hnmem, hnp⟩ := List.mem_filter.mp hn
    exact ⟨n, hnmem, rfl, (linkKeyP_iff n.tagName n.attributes).mp hnp⟩

/-- Claim C9 witness: the concrete source with one IMG and two A nodes, of
which one has an href, gives buckets of length 1 and 1. -/
theorem claim_C9_witness :
    ((preorder exRootIdx).filter (fun k => imageKeyP k.tagName)).length = 1 ∧
    ((preorder exRootIdx).filter
      (fun k => k.tagName == "A" || k.tagName == "AREA")).length = 2 ∧
    ((preorder exRootIdx).filter (fun k => linkKeyP k.tagName k.attributes)).length = 1 ∧
    (createDOMLikeObject exRootIdx 0 400 0).1.images.length = 1 ∧
    (createDOMLikeObject exRootIdx 0 400 0).1.links.length = 1 := by
  have himg : ((preorder exRootIdx).filter (fun k => imageKeyP k.tagName)).length = 1 := by
    decide
  have hlink2 : ((preorder exRootIdx).filter
      (fun k => k.tagName == "A" || k.tagName == "AREA")).length = 2 := by
    decide
  have hlinkhref : ((preorder exRootIdx).filter
      (fun k => linkKeyP k.tagName k.attributes)).length = 1 := by
    decide
  have h := claim_C9_index exRootIdx 0 400 0 himg hlink2 hlinkhref
  exact ⟨himg, hlink2, hlinkhref, h.1, h.2.1⟩

end DomToCanvas
